import Mathlib

/-!
Shallow embedding of `src/mdp/signal_node.py` (classes `Node` and `Cumulator`)
and proofs about the node lifecycle state machine.

Modelling conventions:
* numpy arrays are modelled by `Arr`: an explicit rank field `ndim`, a column
  count `cols`, the row-major contents `rows` (a list of rows), and a dtype tag;
  `x.shape[0]` is `x.rows.length` and `x.shape[1]` is `x.cols`.
* dtypes are opaque numeric tags (`Dtype := Nat`); numeric conversion between
  dtypes is abstracted away: casting only retags an array.
* every `raise` site of the source is its own constructor of `Err`.
* a Python `Node` object mutating in place while possibly raising is modelled
  by the monad `NodeM`: a state transformer whose result (`RunResult`) carries
  the state both on success and on raise, exactly like the surviving object.
* the concrete override points (`_train`, `_stop_training`, `_execute`,
  `_inverse`, `_check_train_args`, `is_trainable`, `is_invertible`,
  `_get_supported_dtypes`, `_get_train_seq`) of a concrete node class are the
  fields of `NodeClass`; the step functions read the whole node state but
  write only the algorithm-internal part, as the concrete nodes of the
  repository (`Node` defaults and `Cumulator`) do.
-/

set_option maxHeartbeats 1600000

namespace MdpSignalNode

/-- numpy dtypes, modelled as opaque numeric tags. -/
abbrev Dtype := Nat

/-- A numpy data array: rank, column count, row-major contents and dtype tag.
When `ndim = 2`, `shape` is `(rows.length, cols)`. -/
structure Arr where
  ndim : Nat
  cols : Nat
  rows : List (List Int)
  dtype : Dtype

deriving instance DecidableEq for Arr

/-- One constructor per `raise` site of `src/mdp/signal_node.py`. -/
inductive Err where
  /-- `set_input_dim`: input dim already set to a different value. -/
  | inputDimAlreadySet (old given : Nat)
  /-- `set_output_dim`: output dim already set to a different value. -/
  | outputDimAlreadySet (old given : Nat)
  /-- `set_dtype`: dtype already set to a different value. -/
  | dtypeAlreadySet (old given : Dtype)
  /-- `set_dtype`: requested dtype outside the supported set. -/
  | dtypeNotSupported (given : Dtype)
  /-- `_check_input`: x has rank other than 2. -/
  | xRankError (ndim : Nat)
  /-- `_check_input`: x's column count conflicts with `input_dim`. -/
  | xDimError (got : Nat) (expected : Option Nat)
  /-- `_check_input`: x has zero observations. -/
  | xZeroObs
  /-- `_check_output`: y has rank other than 2. -/
  | yRankError (ndim : Nat)
  /-- `_check_output`: y's column count conflicts with `output_dim`. -/
  | yDimError (got : Nat) (expected : Option Nat)
  /-- `train`: IsNotTrainableException. -/
  | isNotTrainable
  /-- `train` and `stop_training`: TrainingFinishedException. -/
  | trainingFinished
  /-- `stop_training`: TrainingException, the node has not been trained. -/
  | notTrained
  /-- `_if_training_stop_training`: TrainingException, phases not completed. -/
  | phasesNotCompleted
  /-- `_pre_inversion_checks`: number of input dimensions undefined. -/
  | inversionDimUndefined
  /-- `inverse`: IsNotInvertibleException. -/
  | isNotInvertible
  /-- default `_train` of a trainable node: NotImplementedError. -/
  | notImplemented
  /-- `Cumulator._stop_training`: numpy reshape failure (ValueError). -/
  | reshapeError

deriving instance DecidableEq for Err

/-- The mutable instance state of a `Node`:
`_input_dim`, `_output_dim`, `_dtype`, `_training`, `_train_phase`,
`_train_phase_started`, plus the subclass-specific internal state `internal`
(for example `Cumulator`'s `data`/`tlen`). -/
structure NodeState (σ : Type) where
  input_dim : Option Nat
  output_dim : Option Nat
  dtype : Option Dtype
  training : Bool
  train_phase : Int
  train_phase_started : Bool
  internal : σ

deriving instance DecidableEq for NodeState

/-- Result of running a method on a node: the Python object survives a raise,
so the state is carried on both outcomes. -/
inductive RunResult (σ : Type) (α : Type) where
  | ok : α → NodeState σ → RunResult σ α
  | err : Err → NodeState σ → RunResult σ α

deriving instance DecidableEq for RunResult

/-- The state of the node after the run, whether it raised or not. -/
def RunResult.state : RunResult σ α → NodeState σ
  | .ok _ s => s
  | .err _ s => s

/-- True when the run raised. -/
def RunResult.isErr : RunResult σ α → Bool
  | .ok _ _ => false
  | .err _ _ => true

/-- A method body: in-place mutation with exceptions. -/
def NodeM (σ : Type) (α : Type) : Type := NodeState σ → RunResult σ α

instance : Monad (NodeM σ) where
  pure a := fun s => .ok a s
  bind x f := fun s =>
    match x s with
    | .ok a s1 => f a s1
    | .err e s1 => .err e s1

/-- Read `self`. -/
def getS : NodeM σ (NodeState σ) := fun s => .ok s s

/-- Overwrite `self`'s attributes. -/
def setS (s1 : NodeState σ) : NodeM σ Unit := fun _ => .ok () s1

/-- `raise e`. -/
def throwE (e : Err) : NodeM σ α := fun s => .err e s

/-- The override points a concrete `Node` subclass may supply, together with
its capability flags, supported dtypes and the length of `_train_seq`.
The concrete steps receive the whole node state (they may read `input_dim`,
`dtype`, ...) but write only the internal part, as the repository's concrete
nodes do; a raise inside a step propagates unchanged. -/
structure NodeClass (σ : Type) where
  is_trainable : Bool
  is_invertible : Bool
  supported_dtypes : List Dtype
  n_phases : Nat
  train_step : Nat → NodeState σ → Arr → Except Err σ
  stop_step : Nat → NodeState σ → Except Err σ
  execute_step : NodeState σ → Arr → Except Err (σ × Arr)
  inverse_step : NodeState σ → Arr → Except Err (σ × Arr)
  check_train_args : NodeState σ → Arr → Except Err Unit

/-- Modelled from the spec: `mdp.utils.refcast(x, dtype)` is outside `src/`;
the spec says the incoming data is cast to the node's dtype (never the node's
committed dtype).  With opaque dtype tags, casting retags the array. -/
def refcast (x : Arr) (t : Option Dtype) : Arr :=
  match t with
  | some t => { x with dtype := t }
  | none => x

/-- `Node.set_input_dim`. -/
def set_input_dim (n : Option Nat) : NodeM σ Unit := do
  match n with
  | none => pure ()
  | some n =>
    let s ← getS
    match s.input_dim with
    | some m =>
      if m ≠ n then throwE (.inputDimAlreadySet m n)
      else setS { s with input_dim := some n }
    | none => setS { s with input_dim := some n }

/-- `Node.set_output_dim`. -/
def set_output_dim (n : Option Nat) : NodeM σ Unit := do
  match n with
  | none => pure ()
  | some n =>
    let s ← getS
    match s.output_dim with
    | some m =>
      if m ≠ n then throwE (.outputDimAlreadySet m n)
      else setS { s with output_dim := some n }
    | none => setS { s with output_dim := some n }

/-- `Node.set_dtype`.  `numx.dtype(t)` canonicalization is the identity on
the opaque tags. -/
def set_dtype (C : NodeClass σ) (t : Option Dtype) : NodeM σ Unit := do
  match t with
  | none => pure ()
  | some t =>
    let s ← getS
    if h : s.dtype.isSome ∧ s.dtype ≠ some t then
      throwE (.dtypeAlreadySet (s.dtype.get h.1) t)
    else if t ∉ C.supported_dtypes then
      throwE (.dtypeNotSupported t)
    else
      setS { s with dtype := some t }

/-- `Node._check_input`. -/
def check_input (C : NodeClass σ) (x : Arr) : NodeM σ Unit := do
  -- check input rank
  if x.ndim ≠ 2 then throwE (.xRankError x.ndim)
  else do
  -- set the input dimension if necessary
  let s ← getS
  if s.input_dim = none then set_input_dim (some x.cols) else pure ()
  -- set the dtype if necessary
  let s1 ← getS
  if s1.dtype = none then set_dtype C (some x.dtype) else pure ()
  -- check the input dimension
  let s2 ← getS
  if some x.cols ≠ s2.input_dim then throwE (.xDimError x.cols s2.input_dim)
  else if x.rows.length = 0 then throwE .xZeroObs
  else pure ()

/-- `Node._check_output`. -/
def check_output (y : Arr) : NodeM σ Unit := do
  -- check output rank
  if y.ndim ≠ 2 then throwE (.yRankError y.ndim)
  else do
  -- check the output dimension
  let s ← getS
  if some y.cols ≠ s.output_dim then throwE (.yDimError y.cols s.output_dim)
  else pure ()

/-- `Node.train`. -/
def train (C : NodeClass σ) (x : Arr) : NodeM σ Unit := do
  if C.is_trainable = false then throwE .isNotTrainable
  else do
  let s0 ← getS
  if s0.training = false then throwE .trainingFinished
  else do
  check_input C x
  let s1 ← getS
  match C.check_train_args s1 x with
  | .error e => throwE e
  | .ok _ => do
    setS { s1 with train_phase_started := true }
    let s2 ← getS
    match C.train_step s2.train_phase.toNat s2 (refcast x s2.dtype) with
    | .error e => throwE e
    | .ok i => setS { s2 with internal := i }

/-- `Node.stop_training`. -/
def stop_training (C : NodeClass σ) : NodeM σ Unit := do
  let s ← getS
  if s.training = true ∧ s.train_phase_started = false then throwE .notTrained
  else if s.training = false then throwE .trainingFinished
  else
    -- close the current phase
    match C.stop_step s.train_phase.toNat s with
    | .error e => throwE e
    | .ok i => do
      let s1 := { s with internal := i, train_phase := s.train_phase + 1,
                         train_phase_started := false }
      -- check if we have some training phase left
      if (C.n_phases : Int) - s1.train_phase = 0 then
        setS { s1 with training := false }
      else setS s1

/-- `Node._if_training_stop_training`. -/
def if_training_stop_training (C : NodeClass σ) : NodeM σ Unit := do
  let s ← getS
  if s.training = true then do
    stop_training C
    let s1 ← getS
    if (C.n_phases : Int) - s1.train_phase > 0 then throwE .phasesNotCompleted
    else pure ()
  else pure ()

/-- The `while True` loop of `Node._pre_execution_checks`, with fuel counting
the remaining `stop_training` iterations.  Each iteration's `stop_training`
increments `_train_phase`, so the fuel `C.n_phases` supplied at the call site
always suffices; the fuel-exhausted base case (train once, stop looping) is
unreachable from there. -/
def bootstrap_loop (C : NodeClass σ) (x : Arr) : Nat → NodeM σ Unit
  | 0 => do
    train C x
    pure ()
  | fuel + 1 => do
    train C x
    let s ← getS
    if (C.n_phases : Int) - s.train_phase > 1 then do
      stop_training C
      bootstrap_loop C x fuel
    else pure ()

/-- `Node._pre_execution_checks`. -/
def pre_execution_checks (C : NodeClass σ) (x : Arr) : NodeM σ Unit := do
  -- if training has not started yet, assume we want to train the node
  let s ← getS
  if s.train_phase = 0 ∧ s.train_phase_started = false then bootstrap_loop C x C.n_phases
  else pure ()
  if_training_stop_training C
  -- control the dimension of x
  check_input C x
  -- set the output dimension if necessary
  let s1 ← getS
  if s1.output_dim = none then set_output_dim s1.input_dim else pure ()

/-- `Node._pre_inversion_checks`. -/
def pre_inversion_checks (C : NodeClass σ) (y : Arr) : NodeM σ Unit := do
  if C.is_invertible = false then throwE .isNotInvertible
  else do
  if_training_stop_training C
  -- set the output dimension if necessary
  let s ← getS
  if s.output_dim = none then
    -- if the input_dim is not defined, raise an exception
    if s.input_dim = none then throwE .inversionDimUndefined
    else set_output_dim s.input_dim
  else pure ()
  -- control the dimension of y
  check_output y

/-- `Node.execute`. -/
def execute (C : NodeClass σ) (x : Arr) : NodeM σ Arr := do
  pre_execution_checks C x
  let s ← getS
  match C.execute_step s (refcast x s.dtype) with
  | .error e => throwE e
  | .ok (i, y) => do
    setS { s with internal := i }
    pure y

/-- `Node.inverse`. -/
def inverse (C : NodeClass σ) (y : Arr) : NodeM σ Arr := do
  pre_inversion_checks C y
  let s ← getS
  match C.inverse_step s (refcast y s.dtype) with
  | .error e => throwE e
  | .ok (i, x) => do
    setS { s with internal := i }
    pure x

/-- `Node.__init__`: attributes start unset, the property setters run on the
constructor arguments (and may raise), then the training flags are set from
trainability. -/
def node_init (C : NodeClass σ) (i0 : σ) (input_dim output_dim : Option Nat)
    (dt : Option Dtype) : RunResult σ Unit :=
  (do
    set_input_dim input_dim
    set_output_dim output_dim
    set_dtype C dt
    let s ← getS
    if C.is_trainable = true then
      setS { s with training := true, train_phase := 0, train_phase_started := false }
    else
      setS { s with training := false, train_phase := -1, train_phase_started := false })
  { input_dim := none, output_dim := none, dtype := none,
    training := false, train_phase := 0, train_phase_started := false, internal := i0 }

/-- The state of a node freshly constructed with no explicit dimensions or
dtype. -/
def fresh (C : NodeClass σ) (i0 : σ) : NodeState σ :=
  { input_dim := none, output_dim := none, dtype := none,
    training := C.is_trainable,
    train_phase := if C.is_trainable then 0 else -1,
    train_phase_started := false, internal := i0 }

/-- Modelled from the spec: the default supported-dtype set comes from
`mdp.utils.get_dtypes`, which is outside `src/`; the spec keeps the
enumeration policy external ("all known types" by default).  Modelled as a
fixed finite set of tags. -/
def allDtypes : List Dtype := [0, 1, 2, 3]

/-- A concrete `Node` subclass that overrides only the capability flags and
the supported-dtype set, keeping every default step of the base class:
default `_train` raises NotImplementedError when the node is trainable,
default `_stop_training` is a no-op, default `_execute` is the identity, and
default `_inverse` returns its argument (its non-invertible branch is
unreachable through `inverse`, which raises first). -/
def defaultClass (trainable invertible : Bool) (supported : List Dtype) :
    NodeClass Unit where
  is_trainable := trainable
  is_invertible := invertible
  supported_dtypes := supported
  n_phases := 1
  train_step := fun _ s _ =>
    if trainable then .error .notImplemented else .ok s.internal
  stop_step := fun _ s => .ok s.internal
  execute_step := fun s x => .ok (s.internal, x)
  inverse_step := fun s y => .ok (s.internal, y)
  check_train_args := fun _ _ => .ok ()

/-- `Cumulator`'s subclass state: the flat buffer `data` (after
`_stop_training` the same flat contents stand for the reshaped
two-dimensional array, whose rows `listChunk` recovers) and the row count
`tlen`. -/
structure CumState where
  data : List Int
  tlen : Nat

deriving instance DecidableEq for CumState

/-- `Cumulator._train`: `tlen` grows by `x.shape[0]` and the row-major
flattening of `x` is appended to the buffer. -/
def cum_train_step : Nat → NodeState CumState → Arr → Except Err CumState :=
  fun _ s x =>
    .ok { data := s.internal.data ++ x.rows.flatten,
          tlen := s.internal.tlen + x.rows.length }

/-- `Cumulator._stop_training`: `numx.array(self.data, dtype)` followed by
the reshape `self.data.shape = (self.tlen, self.input_dim)`, which raises
unless the buffer holds exactly `tlen * input_dim` values. -/
def cum_stop_step : Nat → NodeState CumState → Except Err CumState :=
  fun _ s =>
    match s.input_dim with
    | some d =>
      if s.internal.data.length = s.internal.tlen * d then .ok s.internal
      else .error .reshapeError
    | none => .error .reshapeError

/-- The `Cumulator` class: trainable, invertible, default supported dtypes,
one training phase, identity execute/inverse inherited from `Node`. -/
def cumClass : NodeClass CumState where
  is_trainable := true
  is_invertible := true
  supported_dtypes := allDtypes
  n_phases := 1
  train_step := cum_train_step
  stop_step := cum_stop_step
  execute_step := fun s x => .ok (s.internal, x)
  inverse_step := fun s y => .ok (s.internal, y)
  check_train_args := fun _ _ => .ok ()

/-- Rows of a two-dimensional array with `n` rows of length `c`, recovered
from its flat row-major contents. -/
def listChunk (c : Nat) : Nat → List Int → List (List Int)
  | 0, _ => []
  | n + 1, l => l.take c :: listChunk c n (l.drop c)

/-- `Cumulator.__init__`: the base init plus `data = []`, `tlen = 0`. -/
def cum_init (input_dim output_dim : Option Nat) (dt : Option Dtype) :
    RunResult CumState Unit :=
  node_init cumClass { data := [], tlen := 0 } input_dim output_dim dt

/-- A sequence of `train` calls on the same node, one per batch. -/
def trainAll (C : NodeClass σ) : List Arr → NodeM σ Unit
  | [] => pure ()
  | x :: xs => do
    train C x
    trainAll C xs

/-- The training-phase cursor never decreases across a method. -/
def PhaseMono (m : NodeM σ α) : Prop :=
  ∀ s : NodeState σ, s.train_phase ≤ (m s).state.train_phase

/-- Once `_training` is false, it stays false across a method. -/
def KeepsClosed (m : NodeM σ α) : Prop :=
  ∀ s : NodeState σ, s.training = false → (m s).state.training = false

/-- Raising on every start state, regardless of the state's contents. -/
def FailsOn (m : NodeM σ α) : Prop :=
  ∀ s : NodeState σ, (m s).isErr = true

/-! ### The claims -/

/-- A concrete `Node` subclass for concrete runs: trainable and invertible,
with the supported-dtype set overridden to contain only the tag 0. -/
def narrowClass : NodeClass Unit := defaultClass true true [0]

/-- A non-trainable, invertible concrete node class. -/
def nonTrainableClass : NodeClass Unit := defaultClass false true [0, 1]

/-- A one-row array with 3 columns and the dtype tag 1, which `narrowClass`
does not support. -/
def xUnsupported : Arr := { ndim := 2, cols := 3, rows := [[1, 2, 3]], dtype := 1 }

/-- The state of a fresh `Cumulator`. -/
def cumFresh : NodeState CumState := fresh cumClass { data := [], tlen := 0 }

/-- A one-row, two-column array of dtype tag 0. -/
def arrTypeA : Arr := { ndim := 2, cols := 2, rows := [[1, 2]], dtype := 0 }

/-- A one-row, two-column array of dtype tag 1. -/
def arrTypeB : Arr := { ndim := 2, cols := 2, rows := [[3, 4]], dtype := 1 }

/-- The Cumulator's state after the first training batch of dtype 0. -/
def cumAfterA : NodeState CumState :=
  { input_dim := some 2, output_dim := none, dtype := some 0, training := true,
    train_phase := 0, train_phase_started := true,
    internal := { data := [1, 2], tlen := 1 } }

/-- A default-step trainable node state mid-phase (one train call seen). -/
def startedState : NodeState Unit :=
  { input_dim := some 2, output_dim := none, dtype := some 0, training := true,
    train_phase := 0, train_phase_started := false, internal := () }

/-- A two-column array with zero rows. -/
def zeroRowArr : Arr := { ndim := 2, cols := 2, rows := [], dtype := 0 }

/-- A trained, closed node state with output dimension 2. -/
def closedState : NodeState Unit :=
  { input_dim := some 2, output_dim := some 2, dtype := some 0,
    training := false, train_phase := 1, train_phase_started := false,
    internal := () }

/-- A trainable, non-invertible concrete node class. -/
def nonInvertibleClass : NodeClass Unit := defaultClass true false [0, 1]

/-- A closed node state with `input_dim` set and `output_dim` unset. -/
def inputOnlyState : NodeState Unit :=
  { input_dim := some 2, output_dim := none, dtype := some 0,
    training := false, train_phase := -1, train_phase_started := false,
    internal := () }

/-- The Cumulator state after one batch and one `stop_training`. -/
def cumClosed : NodeState CumState :=
  { cumAfterA with train_phase := 1, train_phase_started := false,
                   training := false }

/-- The (3, 2) batch of the claim. -/
def batch32 : Arr :=
  { ndim := 2, cols := 2, rows := [[1, 2], [3, 4], [5, 6]], dtype := 0 }

/-- The (5, 2) batch of the claim. -/
def batch52 : Arr :=
  { ndim := 2, cols := 2,
    rows := [[7, 8], [9, 10], [11, 12], [13, 14], [15, 16]], dtype := 0 }

/-! ### Lemmas and claim theorems -/

theorem bind_apply (x : NodeM σ α) (f : α → NodeM σ β) (s : NodeState σ) :
    (x >>= f) s = match x s with
      | .ok a s1 => f a s1
      | .err e s1 => .err e s1 := rfl

theorem pure_apply (a : α) (s : NodeState σ) : (pure a : NodeM σ α) s = .ok a s := rfl

theorem getS_apply (s : NodeState σ) : (getS : NodeM σ (NodeState σ)) s = .ok s s := rfl

theorem setS_apply (s1 s : NodeState σ) : (setS s1 : NodeM σ Unit) s = .ok () s1 := rfl

theorem throwE_apply (e : Err) (s : NodeState σ) : (throwE e : NodeM σ α) s = .err e s := rfl

theorem node_init_fresh (C : NodeClass σ) (i0 : σ) :
    node_init C i0 none none none = .ok () (fresh C i0) := by
  cases h : C.is_trainable <;>
    simp [node_init, fresh, set_input_dim, set_output_dim, set_dtype, bind_apply,
      pure_apply, getS_apply, setS_apply, Bind.bind, Pure.pure, h]

/-! ### Helper lemmas about the base-class methods -/

theorem check_input_fresh_ok (C : NodeClass σ) (x : Arr) (s : NodeState σ)
    (hid : s.input_dim = none) (hdt : s.dtype = none) (hnd : x.ndim = 2)
    (hsup : x.dtype ∈ C.supported_dtypes) (hrows : x.rows ≠ []) :
    check_input C x s =
      .ok () { s with input_dim := some x.cols, dtype := some x.dtype } := by
  obtain ⟨id, od, dt, tr, ph, st, it⟩ := s
  simp only at hid hdt
  subst hid hdt
  simp [check_input, set_input_dim, set_dtype, bind_apply, getS_apply,
    setS_apply, throwE_apply, pure_apply, Bind.bind, Pure.pure, hnd, hsup, hrows]

theorem check_input_locked_ok (C : NodeClass σ) (x : Arr) (s : NodeState σ)
    (c : Nat) (t : Dtype) (hid : s.input_dim = some c) (hdt : s.dtype = some t)
    (hnd : x.ndim = 2) (hc : x.cols = c) (hrows : x.rows ≠ []) :
    check_input C x s = .ok () s := by
  obtain ⟨id, od, dt, tr, ph, st, it⟩ := s
  simp only at hid hdt
  subst hid hdt hc
  simp [check_input, set_input_dim, set_dtype, bind_apply, getS_apply,
    setS_apply, throwE_apply, pure_apply, Bind.bind, Pure.pure, hnd, hrows]

theorem check_input_dim_mismatch (C : NodeClass σ) (x : Arr) (s : NodeState σ)
    (c : Nat) (t : Dtype) (hid : s.input_dim = some c) (hdt : s.dtype = some t)
    (hnd : x.ndim = 2) (hc : x.cols ≠ c) :
    check_input C x s = .err (.xDimError x.cols (some c)) s := by
  obtain ⟨id, od, dt, tr, ph, st, it⟩ := s
  simp only at hid hdt
  subst hid hdt
  simp [check_input, set_input_dim, set_dtype, bind_apply, getS_apply,
    setS_apply, throwE_apply, pure_apply, Bind.bind, Pure.pure, hnd, hc]

theorem check_input_unsupported (C : NodeClass σ) (x : Arr) (s : NodeState σ)
    (hid : s.input_dim = none) (hdt : s.dtype = none) (hnd : x.ndim = 2)
    (hsup : x.dtype ∉ C.supported_dtypes) :
    check_input C x s =
      .err (.dtypeNotSupported x.dtype) { s with input_dim := some x.cols } := by
  obtain ⟨id, od, dt, tr, ph, st, it⟩ := s
  simp only at hid hdt
  subst hid hdt
  simp [check_input, set_input_dim, set_dtype, bind_apply, getS_apply,
    setS_apply, throwE_apply, pure_apply, Bind.bind, Pure.pure, hnd, hsup]

theorem check_input_zero_locked (C : NodeClass σ) (x : Arr) (s : NodeState σ)
    (c : Nat) (t : Dtype) (hid : s.input_dim = some c) (hdt : s.dtype = some t)
    (hnd : x.ndim = 2) (hc : x.cols = c) (hrows : x.rows = []) :
    check_input C x s = .err .xZeroObs s := by
  obtain ⟨id, od, dt, tr, ph, st, it⟩ := s
  simp only at hid hdt
  subst hid hdt hc
  simp [check_input, set_input_dim, set_dtype, bind_apply, getS_apply,
    setS_apply, throwE_apply, pure_apply, Bind.bind, Pure.pure, hnd, hrows]

theorem check_input_zero_fresh (C : NodeClass σ) (x : Arr) (s : NodeState σ)
    (hid : s.input_dim = none) (hdt : s.dtype = none) (hnd : x.ndim = 2)
    (hsup : x.dtype ∈ C.supported_dtypes) (hrows : x.rows = []) :
    check_input C x s =
      .err .xZeroObs { s with input_dim := some x.cols, dtype := some x.dtype } := by
  obtain ⟨id, od, dt, tr, ph, st, it⟩ := s
  simp only at hid hdt
  subst hid hdt
  simp [check_input, set_input_dim, set_dtype, bind_apply, getS_apply,
    setS_apply, throwE_apply, pure_apply, Bind.bind, Pure.pure, hnd, hsup, hrows]

/-- Complete evaluation of `_check_input`, by cases on the state's dimension
and dtype fields and the array's shape. -/
theorem check_input_eval (C : NodeClass σ) (x : Arr) (s : NodeState σ) :
    check_input C x s =
      if x.ndim ≠ 2 then .err (.xRankError x.ndim) s
      else
        match s.input_dim, s.dtype with
        | none, none =>
          if x.dtype ∈ C.supported_dtypes then
            if x.rows = [] then
              .err .xZeroObs { s with input_dim := some x.cols, dtype := some x.dtype }
            else .ok () { s with input_dim := some x.cols, dtype := some x.dtype }
          else .err (.dtypeNotSupported x.dtype) { s with input_dim := some x.cols }
        | none, some _ =>
          if x.rows = [] then .err .xZeroObs { s with input_dim := some x.cols }
          else .ok () { s with input_dim := some x.cols }
        | some c, none =>
          if x.dtype ∈ C.supported_dtypes then
            if x.cols = c then
              if x.rows = [] then .err .xZeroObs { s with dtype := some x.dtype }
              else .ok () { s with dtype := some x.dtype }
            else .err (.xDimError x.cols (some c)) { s with dtype := some x.dtype }
          else .err (.dtypeNotSupported x.dtype) s
        | some c, some _ =>
          if x.cols = c then
            if x.rows = [] then .err .xZeroObs s else .ok () s
          else .err (.xDimError x.cols (some c)) s := by
  obtain ⟨id, od, dt, tr, ph, st, it⟩ := s
  by_cases hnd : x.ndim = 2
  · cases id with
    | none =>
      cases dt with
      | none =>
        by_cases hsup : x.dtype ∈ C.supported_dtypes <;>
          by_cases hz : x.rows = [] <;>
            simp [check_input, set_input_dim, set_dtype, bind_apply, getS_apply,
              setS_apply, throwE_apply, pure_apply, Bind.bind, Pure.pure,
              hnd, hsup, hz]
      | some t =>
        by_cases hz : x.rows = [] <;>
          simp [check_input, set_input_dim, set_dtype, bind_apply, getS_apply,
            setS_apply, throwE_apply, pure_apply, Bind.bind, Pure.pure, hnd, hz]
    | some c =>
      cases dt with
      | none =>
        by_cases hsup : x.dtype ∈ C.supported_dtypes <;>
          by_cases hc : x.cols = c <;>
            by_cases hz : x.rows = [] <;>
              simp [check_input, set_input_dim, set_dtype, bind_apply, getS_apply,
                setS_apply, throwE_apply, pure_apply, Bind.bind, Pure.pure,
                hnd, hsup, hc, hz]
      | some t =>
        by_cases hc : x.cols = c <;>
          by_cases hz : x.rows = [] <;>
            simp [check_input, set_input_dim, set_dtype, bind_apply, getS_apply,
              setS_apply, throwE_apply, pure_apply, Bind.bind, Pure.pure,
              hnd, hc, hz]
  · simp [check_input, bind_apply, throwE_apply, hnd]

/-- Whatever `_check_input` does, it touches only `input_dim` and `dtype`. -/
theorem check_input_frame (C : NodeClass σ) (x : Arr) (s : NodeState σ) :
    (check_input C x s).state.training = s.training ∧
    (check_input C x s).state.train_phase = s.train_phase ∧
    (check_input C x s).state.train_phase_started = s.train_phase_started ∧
    (check_input C x s).state.internal = s.internal ∧
    (check_input C x s).state.output_dim = s.output_dim := by
  obtain ⟨id, od, dt, tr, ph, st, it⟩ := s
  rw [check_input_eval]
  cases id <;> cases dt <;> (repeat' split) <;> simp [RunResult.state]

/-- `_check_input` raises on every array with zero observations. -/
theorem check_input_zero_isErr (C : NodeClass σ) (x : Arr) (s : NodeState σ)
    (hrows : x.rows = []) : (check_input C x s).isErr = true := by
  obtain ⟨id, od, dt, tr, ph, st, it⟩ := s
  rw [check_input_eval]
  cases id <;> cases dt <;> (repeat' split) <;> simp_all [RunResult.isErr]

/-- `_check_input` succeeds only on arrays with at least one observation. -/
theorem check_input_ok_rows (C : NodeClass σ) (x : Arr) (s s1 : NodeState σ)
    (h : check_input C x s = .ok () s1) : x.rows ≠ [] := by
  intro hrows
  have h1 := check_input_zero_isErr C x s hrows
  rw [h] at h1
  simp [RunResult.isErr] at h1

theorem train_not_trainable (C : NodeClass σ) (x : Arr) (s : NodeState σ)
    (h : C.is_trainable = false) : train C x s = .err .isNotTrainable s := by
  simp [train, bind_apply, getS_apply, throwE_apply, Bind.bind, h]

theorem train_not_training (C : NodeClass σ) (x : Arr) (s : NodeState σ)
    (hT : C.is_trainable = true) (h : s.training = false) :
    train C x s = .err .trainingFinished s := by
  simp [train, bind_apply, getS_apply, throwE_apply, setS_apply, pure_apply,
    Bind.bind, hT, h]

/-- Evaluation of `train` past its two lifecycle guards, in terms of the
input check, the argument check and the concrete train-step. -/
theorem train_eval (C : NodeClass σ) (x : Arr) (s : NodeState σ)
    (hT : C.is_trainable = true) (hTr : s.training = true) :
    train C x s =
      match check_input C x s with
      | .err e s1 => .err e s1
      | .ok _ s1 =>
        match C.check_train_args s1 x with
        | .error e => .err e s1
        | .ok _ =>
          match C.train_step s1.train_phase.toNat
              { s1 with train_phase_started := true } (refcast x s1.dtype) with
          | .error e => .err e { s1 with train_phase_started := true }
          | .ok i => .ok () { s1 with train_phase_started := true, internal := i } := by
  simp [train, bind_apply, getS_apply, throwE_apply, setS_apply,
    pure_apply, Bind.bind, hT, hTr]
  cases h1 : check_input C x s with
  | err e s1 => rfl
  | ok a s1 =>
    dsimp only
    cases hargs : C.check_train_args s1 x with
    | error e => rfl
    | ok u =>
      dsimp only [throwE, setS]
      cases hstep : C.train_step s1.train_phase.toNat
          { s1 with train_phase_started := true } (refcast x s1.dtype) with
      | error e => rfl
      | ok i => rfl

theorem train_frame (C : NodeClass σ) (x : Arr) (s : NodeState σ) :
    (train C x s).state.training = s.training ∧
    (train C x s).state.train_phase = s.train_phase ∧
    (train C x s).state.output_dim = s.output_dim := by
  by_cases hT : C.is_trainable = true
  case neg =>
    have hT1 : C.is_trainable = false := by revert hT; cases C.is_trainable <;> simp
    simp [train_not_trainable C x s hT1, RunResult.state]
  case pos =>
  by_cases hTr : s.training = true
  case neg =>
    have hTr1 : s.training = false := by revert hTr; cases s.training <;> simp
    simp [train_not_training C x s hT hTr1, RunResult.state]
  case pos =>
  have hf := check_input_frame C x s
  rw [train_eval C x s hT hTr]
  cases h1 : check_input C x s with
  | err e s1 =>
    rw [h1] at hf
    simp only [RunResult.state] at hf ⊢
    exact ⟨hf.1, hf.2.1, hf.2.2.2.2⟩
  | ok a s1 =>
    rw [h1] at hf
    simp only [RunResult.state] at hf
    obtain ⟨f1, f2, f3, f4, f5⟩ := hf
    dsimp only
    cases hargs : C.check_train_args s1 x with
    | error e => simp [RunResult.state, f1, f2, f5]
    | ok u =>
      dsimp only
      cases hstep : C.train_step s1.train_phase.toNat
          { s1 with train_phase_started := true } (refcast x s1.dtype) with
      | error e => simp [RunResult.state, f1, f2, f5]
      | ok i => simp [RunResult.state, f1, f2, f5]

/-- Complete evaluation of `stop_training`. -/
theorem stop_training_eval (C : NodeClass σ) (s : NodeState σ) :
    stop_training C s =
      if s.training = true ∧ s.train_phase_started = false then .err .notTrained s
      else if s.training = false then .err .trainingFinished s
      else
        match C.stop_step s.train_phase.toNat s with
        | .error e => .err e s
        | .ok i =>
          if (C.n_phases : Int) - (s.train_phase + 1) = 0 then
            .ok () { s with internal := i, train_phase := s.train_phase + 1,
                            train_phase_started := false, training := false }
          else
            .ok () { s with internal := i, train_phase := s.train_phase + 1,
                            train_phase_started := false } := by
  by_cases htr : s.training = true
  · by_cases hst : s.train_phase_started = false
    · simp [stop_training, bind_apply, getS_apply, throwE_apply, Bind.bind,
        htr, hst]
    · have hst1 : s.train_phase_started = true := by
        revert hst; cases s.train_phase_started <;> simp
      simp only [stop_training, bind_apply, getS_apply, throwE_apply,
        setS_apply, pure_apply, Bind.bind]
      rw [if_neg (by simp [htr, hst1]), if_neg (by simp [htr]),
        if_neg (by simp [htr, hst1]), if_neg (by simp [htr])]
      cases hstep : C.stop_step s.train_phase.toNat s with
      | error e => rfl
      | ok i =>
        dsimp only
        by_cases h3 : (C.n_phases : Int) - (s.train_phase + 1) = 0
        · rw [if_pos h3, if_pos h3]; rfl
        · rw [if_neg h3, if_neg h3]; rfl
  · have htr1 : s.training = false := by revert htr; cases s.training <;> simp
    simp [stop_training, bind_apply, getS_apply, throwE_apply, Bind.bind, htr1]

/-- `stop_training` raises only before mutating anything. -/
theorem stop_training_err_inv (C : NodeClass σ) (s s1 : NodeState σ) (e : Err)
    (h : stop_training C s = .err e s1) : s1 = s := by
  rw [stop_training_eval] at h
  by_cases h1 : s.training = true ∧ s.train_phase_started = false
  · rw [if_pos h1] at h; cases h; rfl
  · rw [if_neg h1] at h
    by_cases h2 : s.training = false
    · rw [if_pos h2] at h; cases h; rfl
    · rw [if_neg h2] at h
      cases hstep : C.stop_step s.train_phase.toNat s with
      | error e1 => rw [hstep] at h; cases h; rfl
      | ok i =>
        rw [hstep] at h
        dsimp only at h
        by_cases h3 : (C.n_phases : Int) - (s.train_phase + 1) = 0
        · rw [if_pos h3] at h; cases h
        · rw [if_neg h3] at h; cases h

theorem stop_training_ok_inv (C : NodeClass σ) (s s1 : NodeState σ)
    (h : stop_training C s = .ok () s1) :
    s.training = true ∧ s.train_phase_started = true ∧
    s1.train_phase = s.train_phase + 1 ∧ s1.train_phase_started = false ∧
    s1.input_dim = s.input_dim ∧ s1.output_dim = s.output_dim ∧
    s1.dtype = s.dtype ∧
    s1.training = (if (C.n_phases : Int) - (s.train_phase + 1) = 0 then false
                   else s.training) := by
  rw [stop_training_eval] at h
  by_cases h1 : s.training = true ∧ s.train_phase_started = false
  · rw [if_pos h1] at h; cases h
  · rw [if_neg h1] at h
    by_cases h2 : s.training = false
    · rw [if_pos h2] at h; cases h
    · rw [if_neg h2] at h
      have htr : s.training = true := by revert h2; cases s.training <;> simp
      have hst : s.train_phase_started = true := by
        revert h1; rw [htr]; cases s.train_phase_started <;> simp
      cases hstep : C.stop_step s.train_phase.toNat s with
      | error e1 => rw [hstep] at h; cases h
      | ok i =>
        rw [hstep] at h
        dsimp only at h
        by_cases h3 : (C.n_phases : Int) - (s.train_phase + 1) = 0
        · rw [if_pos h3] at h
          cases h
          simp [htr, hst, h3]
        · rw [if_neg h3] at h
          cases h
          simp [htr, hst, h3]

theorem if_training_not_training (C : NodeClass σ) (s : NodeState σ)
    (h : s.training = false) : if_training_stop_training C s = .ok () s := by
  simp [if_training_stop_training, bind_apply, getS_apply, pure_apply,
    Bind.bind, Pure.pure, h]

theorem if_training_eval_training (C : NodeClass σ) (s : NodeState σ)
    (h : s.training = true) :
    if_training_stop_training C s =
      match stop_training C s with
      | .err e s1 => .err e s1
      | .ok _ s1 =>
        if (C.n_phases : Int) - s1.train_phase > 0 then .err .phasesNotCompleted s1
        else .ok () s1 := by
  simp only [if_training_stop_training, bind_apply, getS_apply, throwE_apply,
    pure_apply, Bind.bind, Pure.pure]
  rw [if_pos h]
  cases h1 : stop_training C s with
  | err e s1 => rfl
  | ok a s1 =>
    dsimp only
    by_cases h2 : (C.n_phases : Int) - s1.train_phase > 0
    · rw [if_pos h2, if_pos h2]; rfl
    · rw [if_neg h2, if_neg h2]

theorem check_output_eval (y : Arr) (s : NodeState σ) :
    check_output y s =
      if y.ndim ≠ 2 then .err (.yRankError y.ndim) s
      else if some y.cols ≠ s.output_dim then .err (.yDimError y.cols s.output_dim) s
      else .ok () s := by
  by_cases h1 : y.ndim = 2
  · by_cases h2 : some y.cols = s.output_dim <;>
      simp [check_output, bind_apply, getS_apply, throwE_apply, pure_apply,
        Bind.bind, Pure.pure, h1, h2]
  · simp [check_output, bind_apply, throwE_apply, Bind.bind, h1]

/-- `_check_output` never mutates the node. -/
theorem check_output_state (y : Arr) (s : NodeState σ) :
    (check_output y s).state = s := by
  rw [check_output_eval]
  by_cases h1 : y.ndim ≠ 2
  · rw [if_pos h1]; rfl
  · rw [if_neg h1]
    by_cases h2 : some y.cols ≠ s.output_dim
    · rw [if_pos h2]; rfl
    · rw [if_neg h2]; rfl

theorem set_output_dim_frame (n : Option Nat) (s : NodeState σ) :
    (set_output_dim n s : RunResult σ Unit).state.training = s.training ∧
    (set_output_dim n s : RunResult σ Unit).state.train_phase = s.train_phase ∧
    (set_output_dim n s : RunResult σ Unit).state.train_phase_started
      = s.train_phase_started ∧
    (set_output_dim n s : RunResult σ Unit).state.input_dim = s.input_dim ∧
    (set_output_dim n s : RunResult σ Unit).state.dtype = s.dtype ∧
    (set_output_dim n s : RunResult σ Unit).state.internal = s.internal := by
  cases n with
  | none => simp [set_output_dim, pure_apply, RunResult.state, Pure.pure]
  | some n =>
    cases ho : s.output_dim with
    | none =>
      simp [set_output_dim, bind_apply, getS_apply, setS_apply, throwE_apply,
        Bind.bind, ho, RunResult.state]
    | some m =>
      by_cases hm : m = n <;>
        simp [set_output_dim, bind_apply, getS_apply, setS_apply, throwE_apply,
          Bind.bind, ho, hm, RunResult.state]

/-- Evaluation of `_pre_execution_checks` when the implicit-training branch
is skipped and the node is no longer training. -/
theorem pre_execution_eval_skip (C : NodeClass σ) (x : Arr) (s : NodeState σ)
    (hph : ¬(s.train_phase = 0 ∧ s.train_phase_started = false))
    (htr : s.training = false) :
    pre_execution_checks C x s =
      match check_input C x s with
      | .err e s1 => .err e s1
      | .ok _ s1 =>
        if s1.output_dim = none then
          match s1.input_dim with
          | none => .ok () s1
          | some n => .ok () { s1 with output_dim := some n }
        else .ok () s1 := by
  simp only [pre_execution_checks, bind_apply, getS_apply, setS_apply,
    pure_apply, Bind.bind, Pure.pure]
  rw [if_neg hph]
  rw [if_training_not_training C s htr]
  dsimp only
  cases h1 : check_input C x s with
  | err e s1 => rfl
  | ok a s1 =>
    dsimp only
    by_cases h2 : s1.output_dim = none
    · rw [if_pos h2, if_pos h2]
      cases hi : s1.input_dim with
      | none => simp [set_output_dim, bind_apply, getS_apply, pure_apply,
          Bind.bind, Pure.pure]
      | some n =>
        simp [set_output_dim, bind_apply, getS_apply, setS_apply, Bind.bind,
          h2, hi]
    · rw [if_neg h2, if_neg h2]

theorem execute_eval (C : NodeClass σ) (x : Arr) (s : NodeState σ) :
    execute C x s =
      match pre_execution_checks C x s with
      | .err e s1 => .err e s1
      | .ok _ s1 =>
        match C.execute_step s1 (refcast x s1.dtype) with
        | .error e => .err e s1
        | .ok (i, y) => .ok y { s1 with internal := i } := by
  simp only [execute, bind_apply, getS_apply, setS_apply, throwE_apply,
    pure_apply, Bind.bind, Pure.pure]
  cases h1 : pre_execution_checks C x s with
  | err e s1 => rfl
  | ok a s1 =>
    dsimp only
    cases h2 : C.execute_step s1 (refcast x s1.dtype) with
    | error e => rfl
    | ok p => cases p with | mk i y => rfl

theorem pre_inversion_not_invertible (C : NodeClass σ) (y : Arr)
    (s : NodeState σ) (h : C.is_invertible = false) :
    pre_inversion_checks C y s = .err .isNotInvertible s := by
  simp [pre_inversion_checks, bind_apply, throwE_apply, Bind.bind, h]

/-- Evaluation of `_pre_inversion_checks` for an invertible node whose
training is closed. -/
theorem pre_inversion_eval (C : NodeClass σ) (y : Arr) (s : NodeState σ)
    (hI : C.is_invertible = true) (htr : s.training = false) :
    pre_inversion_checks C y s =
      match s.output_dim with
      | none =>
        match s.input_dim with
        | none => .err .inversionDimUndefined s
        | some c => check_output y { s with output_dim := some c }
      | some _ => check_output y s := by
  simp only [pre_inversion_checks, bind_apply, getS_apply, setS_apply,
    throwE_apply, pure_apply, Bind.bind, Pure.pure, hI]
  rw [if_neg (by simp)]
  rw [if_training_not_training C s htr]
  dsimp only
  cases ho : s.output_dim with
  | none =>
    rw [if_pos rfl]
    cases hi : s.input_dim with
    | none => rw [if_pos rfl]
    | some c =>
      rw [if_neg (by simp [hi])]
      obtain ⟨id, od, dt, tr, ph, st, it⟩ := s
      simp only at ho hi
      subst ho hi
      simp [set_output_dim, bind_apply, getS_apply, setS_apply, Bind.bind]
  | some d =>
    rw [if_neg (by simp [ho])]

theorem inverse_eval (C : NodeClass σ) (y : Arr) (s : NodeState σ) :
    inverse C y s =
      match pre_inversion_checks C y s with
      | .err e s1 => .err e s1
      | .ok _ s1 =>
        match C.inverse_step s1 (refcast y s1.dtype) with
        | .error e => .err e s1
        | .ok (i, x) => .ok x { s1 with internal := i } := by
  simp only [inverse, bind_apply, getS_apply, setS_apply, throwE_apply,
    pure_apply, Bind.bind, Pure.pure]
  cases h1 : pre_inversion_checks C y s with
  | err e s1 => rfl
  | ok a s1 =>
    dsimp only
    cases h2 : C.inverse_step s1 (refcast y s1.dtype) with
    | error e => rfl
    | ok p => cases p with | mk i x => rfl

theorem train_training_false (C : NodeClass σ) (x : Arr) (s : NodeState σ)
    (h : s.training = false) :
    (train C x s).state = s ∧ (train C x s).isErr = true := by
  by_cases hT : C.is_trainable = true
  · simp [train_not_training C x s hT h, RunResult.state, RunResult.isErr]
  · have hT1 : C.is_trainable = false := by
      revert hT; cases C.is_trainable <;> simp
    simp [train_not_trainable C x s hT1, RunResult.state, RunResult.isErr]

theorem stop_training_finished (C : NodeClass σ) (s : NodeState σ)
    (h : s.training = false) :
    stop_training C s = .err .trainingFinished s := by
  rw [stop_training_eval, if_neg (by simp [h]), if_pos h]

theorem stop_training_not_started (C : NodeClass σ) (s : NodeState σ)
    (h1 : s.training = true) (h2 : s.train_phase_started = false) :
    stop_training C s = .err .notTrained s := by
  rw [stop_training_eval, if_pos ⟨h1, h2⟩]

theorem bootstrap_err_of_train (C : NodeClass σ) (x : Arr) (s s1 : NodeState σ)
    (e : Err) (fuel : Nat) (h : train C x s = .err e s1) :
    bootstrap_loop C x fuel s = .err e s1 := by
  cases fuel <;> simp [bootstrap_loop, bind_apply, h]

theorem phaseMono_bind {x : NodeM σ α} {f : α → NodeM σ β}
    (hx : PhaseMono x) (hf : ∀ a, PhaseMono (f a)) : PhaseMono (x >>= f) := by
  intro s
  have h1 := hx s
  rw [bind_apply]
  cases h : x s with
  | ok a s1 =>
    rw [h] at h1
    simp only [RunResult.state] at h1
    exact le_trans h1 (hf a s1)
  | err e s1 =>
    rw [h] at h1
    exact h1

theorem phaseMono_pure (a : α) : PhaseMono (pure a : NodeM σ α) := by
  intro s; simp [pure_apply, RunResult.state]

theorem phaseMono_getS : PhaseMono (getS : NodeM σ (NodeState σ)) := by
  intro s; simp [getS_apply, RunResult.state]

theorem phaseMono_throwE (e : Err) : PhaseMono (throwE e : NodeM σ α) := by
  intro s; simp [throwE_apply, RunResult.state]

theorem phaseMono_check_input (C : NodeClass σ) (x : Arr) :
    PhaseMono (check_input C x) := by
  intro s
  have h := (check_input_frame C x s).2.1
  omega

theorem phaseMono_set_output_dim (n : Option Nat) :
    PhaseMono (set_output_dim n : NodeM σ Unit) := by
  intro s
  have h := (set_output_dim_frame n s).2.1
  omega

theorem phaseMono_train (C : NodeClass σ) (x : Arr) : PhaseMono (train C x) := by
  intro s
  have h := (train_frame C x s).2.1
  omega

theorem phaseMono_stop_training (C : NodeClass σ) :
    PhaseMono (stop_training C) := by
  intro s
  cases h : stop_training C s with
  | err e s1 =>
    have h2 := stop_training_err_inv C s s1 e h
    subst h2
    simp [RunResult.state]
  | ok a s1 =>
    obtain ⟨⟩ := a
    have h2 := (stop_training_ok_inv C s s1 h).2.2.1
    simp only [RunResult.state]
    omega

theorem phaseMono_if_training (C : NodeClass σ) :
    PhaseMono (if_training_stop_training C) := by
  intro s
  by_cases h : s.training = true
  · rw [if_training_eval_training C s h]
    have h1 := phaseMono_stop_training C s
    cases h2 : stop_training C s with
    | err e s1 => rw [h2] at h1; exact h1
    | ok a s1 =>
      rw [h2] at h1
      simp only [RunResult.state] at h1
      dsimp only
      by_cases h3 : (C.n_phases : Int) - s1.train_phase > 0
      · rw [if_pos h3]; exact h1
      · rw [if_neg h3]; exact h1
  · have h1 : s.training = false := by revert h; cases s.training <;> simp
    rw [if_training_not_training C s h1]
    simp [RunResult.state]

theorem phaseMono_bootstrap (C : NodeClass σ) (x : Arr) (fuel : Nat) :
    PhaseMono (bootstrap_loop C x fuel) := by
  induction fuel with
  | zero =>
    show PhaseMono (train C x >>= fun _ => pure ())
    exact phaseMono_bind (phaseMono_train C x) (fun _ => phaseMono_pure ())
  | succ n ih =>
    show PhaseMono (train C x >>= fun _ => getS >>= fun s =>
      if (C.n_phases : Int) - s.train_phase > 1 then
        stop_training C >>= fun _ => bootstrap_loop C x n
      else pure ())
    refine phaseMono_bind (phaseMono_train C x) (fun _ => ?_)
    refine phaseMono_bind phaseMono_getS (fun s => ?_)
    by_cases h : (C.n_phases : Int) - s.train_phase > 1
    · rw [if_pos h]
      exact phaseMono_bind (phaseMono_stop_training C) (fun _ => ih)
    · rw [if_neg h]
      exact phaseMono_pure ()

theorem phaseMono_pre_execution (C : NodeClass σ) (x : Arr) :
    PhaseMono (pre_execution_checks C x) := by
  have hrest : PhaseMono (if_training_stop_training C >>= fun _ =>
      check_input C x >>= fun _ =>
      getS >>= fun s1 =>
      if s1.output_dim = none then set_output_dim s1.input_dim else pure ()) := by
    refine phaseMono_bind (phaseMono_if_training C) (fun _ => ?_)
    refine phaseMono_bind (phaseMono_check_input C x) (fun _ => ?_)
    refine phaseMono_bind phaseMono_getS (fun s1 => ?_)
    by_cases h : s1.output_dim = none
    · rw [if_pos h]; exact phaseMono_set_output_dim s1.input_dim
    · rw [if_neg h]; exact phaseMono_pure ()
  unfold pre_execution_checks
  refine phaseMono_bind phaseMono_getS (fun s => ?_)
  dsimp only
  by_cases h : s.train_phase = 0 ∧ s.train_phase_started = false
  · rw [if_pos h]
    exact phaseMono_bind (phaseMono_bootstrap C x C.n_phases) (fun _ => hrest)
  · rw [if_neg h]
    exact phaseMono_bind (phaseMono_pure ()) (fun _ => hrest)

theorem phaseMono_execute (C : NodeClass σ) (x : Arr) :
    PhaseMono (execute C x) := by
  intro s
  rw [execute_eval]
  have h1 := phaseMono_pre_execution C x s
  cases h2 : pre_execution_checks C x s with
  | err e s1 => rw [h2] at h1; exact h1
  | ok a s1 =>
    rw [h2] at h1
    simp only [RunResult.state] at h1
    dsimp only
    cases h3 : C.execute_step s1 (refcast x s1.dtype) with
    | error e => exact h1
    | ok p =>
      cases p with
      | mk i y => simp only [RunResult.state]; omega

theorem phaseMono_pre_inversion (C : NodeClass σ) (y : Arr) :
    PhaseMono (pre_inversion_checks C y) := by
  have hco : PhaseMono (check_output y : NodeM σ Unit) := by
    intro s2
    rw [check_output_state]
  unfold pre_inversion_checks
  by_cases hI : C.is_invertible = false
  · rw [if_pos hI]; exact phaseMono_throwE _
  · rw [if_neg hI]
    refine phaseMono_bind (phaseMono_if_training C) (fun _ => ?_)
    refine phaseMono_bind phaseMono_getS (fun s => ?_)
    dsimp only
    by_cases h1 : s.output_dim = none
    · rw [if_pos h1]
      by_cases h2 : s.input_dim = none
      · rw [if_pos h2]
        exact phaseMono_bind (phaseMono_throwE _) (fun _ => hco)
      · rw [if_neg h2]
        exact phaseMono_bind (phaseMono_set_output_dim s.input_dim) (fun _ => hco)
    · rw [if_neg h1]
      exact phaseMono_bind (phaseMono_pure ()) (fun _ => hco)

theorem phaseMono_inverse (C : NodeClass σ) (y : Arr) :
    PhaseMono (inverse C y) := by
  intro s
  rw [inverse_eval]
  have h1 := phaseMono_pre_inversion C y s
  cases h2 : pre_inversion_checks C y s with
  | err e s1 => rw [h2] at h1; exact h1
  | ok a s1 =>
    rw [h2] at h1
    simp only [RunResult.state] at h1
    dsimp only
    cases h3 : C.inverse_step s1 (refcast y s1.dtype) with
    | error e => exact h1
    | ok p =>
      cases p with
      | mk i x => simp only [RunResult.state]; omega

theorem keepsClosed_bind {x : NodeM σ α} {f : α → NodeM σ β}
    (hx : KeepsClosed x) (hf : ∀ a, KeepsClosed (f a)) : KeepsClosed (x >>= f) := by
  intro s hs
  have h1 := hx s hs
  rw [bind_apply]
  cases h : x s with
  | ok a s1 =>
    rw [h] at h1
    simp only [RunResult.state] at h1
    exact hf a s1 h1
  | err e s1 =>
    rw [h] at h1
    exact h1

theorem keepsClosed_pure (a : α) : KeepsClosed (pure a : NodeM σ α) := by
  intro s hs; simpa [pure_apply, RunResult.state] using hs

theorem keepsClosed_getS : KeepsClosed (getS : NodeM σ (NodeState σ)) := by
  intro s hs; simpa [getS_apply, RunResult.state] using hs

theorem keepsClosed_throwE (e : Err) : KeepsClosed (throwE e : NodeM σ α) := by
  intro s hs; simpa [throwE_apply, RunResult.state] using hs

theorem keepsClosed_check_input (C : NodeClass σ) (x : Arr) :
    KeepsClosed (check_input C x) := by
  intro s hs
  have h := (check_input_frame C x s).1
  rw [h, hs]

theorem keepsClosed_set_output_dim (n : Option Nat) :
    KeepsClosed (set_output_dim n : NodeM σ Unit) := by
  intro s hs
  have h := (set_output_dim_frame n s).1
  rw [h, hs]

theorem keepsClosed_train (C : NodeClass σ) (x : Arr) :
    KeepsClosed (train C x) := by
  intro s hs
  have h := (train_training_false C x s hs).1
  rw [h, hs]

theorem keepsClosed_stop_training (C : NodeClass σ) :
    KeepsClosed (stop_training C) := by
  intro s hs
  rw [stop_training_finished C s hs]
  simpa [RunResult.state] using hs

theorem keepsClosed_if_training (C : NodeClass σ) :
    KeepsClosed (if_training_stop_training C) := by
  intro s hs
  rw [if_training_not_training C s hs]
  simpa [RunResult.state] using hs

theorem keepsClosed_bootstrap (C : NodeClass σ) (x : Arr) (fuel : Nat) :
    KeepsClosed (bootstrap_loop C x fuel) := by
  induction fuel with
  | zero =>
    show KeepsClosed (train C x >>= fun _ => pure ())
    exact keepsClosed_bind (keepsClosed_train C x) (fun _ => keepsClosed_pure ())
  | succ n ih =>
    show KeepsClosed (train C x >>= fun _ => getS >>= fun s =>
      if (C.n_phases : Int) - s.train_phase > 1 then
        stop_training C >>= fun _ => bootstrap_loop C x n
      else pure ())
    refine keepsClosed_bind (keepsClosed_train C x) (fun _ => ?_)
    refine keepsClosed_bind keepsClosed_getS (fun s => ?_)
    by_cases h : (C.n_phases : Int) - s.train_phase > 1
    · rw [if_pos h]
      exact keepsClosed_bind (keepsClosed_stop_training C) (fun _ => ih)
    · rw [if_neg h]
      exact keepsClosed_pure ()

theorem keepsClosed_pre_execution (C : NodeClass σ) (x : Arr) :
    KeepsClosed (pre_execution_checks C x) := by
  have hrest : KeepsClosed (if_training_stop_training C >>= fun _ =>
      check_input C x >>= fun _ =>
      getS >>= fun s1 =>
      if s1.output_dim = none then set_output_dim s1.input_dim else pure ()) := by
    refine keepsClosed_bind (keepsClosed_if_training C) (fun _ => ?_)
    refine keepsClosed_bind (keepsClosed_check_input C x) (fun _ => ?_)
    refine keepsClosed_bind keepsClosed_getS (fun s1 => ?_)
    by_cases h : s1.output_dim = none
    · rw [if_pos h]; exact keepsClosed_set_output_dim s1.input_dim
    · rw [if_neg h]; exact keepsClosed_pure ()
  unfold pre_execution_checks
  refine keepsClosed_bind keepsClosed_getS (fun s => ?_)
  dsimp only
  by_cases h : s.train_phase = 0 ∧ s.train_phase_started = false
  · rw [if_pos h]
    exact keepsClosed_bind (keepsClosed_bootstrap C x C.n_phases) (fun _ => hrest)
  · rw [if_neg h]
    exact keepsClosed_bind (keepsClosed_pure ()) (fun _ => hrest)

theorem keepsClosed_execute (C : NodeClass σ) (x : Arr) :
    KeepsClosed (execute C x) := by
  intro s hs
  rw [execute_eval]
  have h1 := keepsClosed_pre_execution C x s hs
  cases h2 : pre_execution_checks C x s with
  | err e s1 => rw [h2] at h1; exact h1
  | ok a s1 =>
    rw [h2] at h1
    simp only [RunResult.state] at h1
    dsimp only
    cases h3 : C.execute_step s1 (refcast x s1.dtype) with
    | error e => exact h1
    | ok p =>
      cases p with
      | mk i y => simpa [RunResult.state] using h1

theorem keepsClosed_pre_inversion (C : NodeClass σ) (y : Arr) :
    KeepsClosed (pre_inversion_checks C y) := by
  have hco : KeepsClosed (check_output y : NodeM σ Unit) := by
    intro s2 hs2
    rw [check_output_state]
    exact hs2
  unfold pre_inversion_checks
  by_cases hI : C.is_invertible = false
  · rw [if_pos hI]; exact keepsClosed_throwE _
  · rw [if_neg hI]
    refine keepsClosed_bind (keepsClosed_if_training C) (fun _ => ?_)
    refine keepsClosed_bind keepsClosed_getS (fun s => ?_)
    dsimp only
    by_cases h1 : s.output_dim = none
    · rw [if_pos h1]
      by_cases h2 : s.input_dim = none
      · rw [if_pos h2]
        exact keepsClosed_bind (keepsClosed_throwE _) (fun _ => hco)
      · rw [if_neg h2]
        exact keepsClosed_bind (keepsClosed_set_output_dim s.input_dim) (fun _ => hco)
    · rw [if_neg h1]
      exact keepsClosed_bind (keepsClosed_pure ()) (fun _ => hco)

theorem keepsClosed_inverse (C : NodeClass σ) (y : Arr) :
    KeepsClosed (inverse C y) := by
  intro s hs
  rw [inverse_eval]
  have h1 := keepsClosed_pre_inversion C y s hs
  cases h2 : pre_inversion_checks C y s with
  | err e s1 => rw [h2] at h1; exact h1
  | ok a s1 =>
    rw [h2] at h1
    simp only [RunResult.state] at h1
    dsimp only
    cases h3 : C.inverse_step s1 (refcast y s1.dtype) with
    | error e => exact h1
    | ok p =>
      cases p with
      | mk i x => simpa [RunResult.state] using h1

/-- `_pre_execution_checks` raises on every zero-row array: every control path
reaches `_check_input`, whose last test rejects zero observations. -/
theorem pre_execution_zero_isErr (C : NodeClass σ) (x : Arr)
    (hrows : x.rows = []) : FailsOn (pre_execution_checks C x) := by
  have hci := check_input_zero_isErr C x
  have hjp : ∀ s : NodeState σ, ((if_training_stop_training C >>= fun _ =>
      check_input C x >>= fun _ => getS >>= fun s1 =>
      if s1.output_dim = none then set_output_dim s1.input_dim else pure ())
        s).isErr = true := by
    intro s
    rw [bind_apply]
    cases h : if_training_stop_training C s with
    | err e s1 => simp [RunResult.isErr]
    | ok a s1 =>
      dsimp only
      rw [bind_apply]
      cases h2 : check_input C x s1 with
      | err e s2 => simp [RunResult.isErr]
      | ok a s2 =>
        have h3 := hci s1 hrows
        rw [h2] at h3
        simp [RunResult.isErr] at h3
  intro s
  unfold pre_execution_checks
  rw [bind_apply, getS_apply]
  dsimp only
  by_cases h : s.train_phase = 0 ∧ s.train_phase_started = false
  · rw [if_pos h, bind_apply]
    cases hb : bootstrap_loop C x C.n_phases s with
    | err e s1 => simp [RunResult.isErr]
    | ok a s1 => exact hjp s1
  · rw [if_neg h, bind_apply, pure_apply]
    exact hjp s

/-- C1 counterexample: training a fresh node with an array of unsupported
dtype raises the unsupported-dtype error, yet `input_dim` has already been
locked to the array's column count by the time the error is raised, so the
claim that no state mutation precedes the raise is false. -/
theorem C1_counterexample :
    train narrowClass xUnsupported (fresh narrowClass ()) =
      .err (.dtypeNotSupported 1)
        { fresh narrowClass () with input_dim := some 3 } ∧
    (fresh narrowClass ()).input_dim = none := by
  constructor
  · decide
  · rfl

/-- C1 (amended): errors raised by `train`'s capability and lifecycle guards
leave the state unchanged, and an error raised inside `stop_training` leaves
the state unchanged; but `_check_input` may lock `input_dim` from the array
before a later check fails: training a node with unset dimensions using an
array of unsupported dtype raises with `dtype` still unset while `input_dim`
has become the array's column count. -/
theorem C1_amended (C : NodeClass σ) (x : Arr) (s : NodeState σ) :
    (C.is_trainable = false → train C x s = .err .isNotTrainable s) ∧
    (C.is_trainable = true → s.training = false →
      train C x s = .err .trainingFinished s) ∧
    (∀ e s1, stop_training C s = .err e s1 → s1 = s) ∧
    (C.is_trainable = true → s.training = true → s.input_dim = none →
      s.dtype = none → x.ndim = 2 → x.dtype ∉ C.supported_dtypes →
      train C x s = .err (.dtypeNotSupported x.dtype)
        { s with input_dim := some x.cols }) := by
  refine ⟨fun h => train_not_trainable C x s h,
    fun hT h => train_not_training C x s hT h,
    fun e s1 h => stop_training_err_inv C s s1 e h,
    fun hT hTr hid hdt hnd hsup => ?_⟩
  rw [train_eval C x s hT hTr, check_input_unsupported C x s hid hdt hnd hsup]

/-- C1 amended witness at the concrete unsupported-dtype run. -/
theorem C1_amended_witness :
    train narrowClass xUnsupported (fresh narrowClass ()) =
      .err (.dtypeNotSupported 1)
        { fresh narrowClass () with input_dim := some 3 } :=
  (C1_amended narrowClass xUnsupported
    (fresh narrowClass ())).2.2.2 rfl rfl rfl rfl rfl (by decide)

/-- C2 counterexample: after a first `train` call locks the Cumulator's dtype
to tag 0, a second `train` call with a matching-shape array of the different
dtype tag 1 does not raise: it succeeds, the node's dtype stays 0 and the
second batch is accumulated, refuting the claimed dtype-conflict error. -/
theorem C2_counterexample :
    ((train cumClass arrTypeA >>= fun _ => train cumClass arrTypeB)
        cumFresh).isErr = false ∧
    ((train cumClass arrTypeA >>= fun _ => train cumClass arrTypeB)
        cumFresh).state.dtype = some 0 ∧
    ((train cumClass arrTypeA >>= fun _ => train cumClass arrTypeB)
        cumFresh).state.internal.data = [1, 2, 3, 4] := by
  refine ⟨?_, ?_, ?_⟩ <;> decide

/-- C2 (amended): on a node whose dtype is locked to A, a later `train` call
with a two-dimensional array of a different dtype B (matching column count,
at least one row) succeeds: only the incoming array is cast to A before being
handed to the concrete train-step, and the node's dtype stays A.  A
dtype-conflict error is raised only by assigning a different dtype directly
through the dtype setter. -/
theorem C2_amended (C : NodeClass σ) (x : Arr) (s : NodeState σ) (a : Dtype)
    (c : Nat) (i : σ)
    (hT : C.is_trainable = true) (hTr : s.training = true)
    (hdt : s.dtype = some a) (hid : s.input_dim = some c)
    (hnd : x.ndim = 2) (hc : x.cols = c) (hrows : x.rows ≠ [])
    (hb : x.dtype ≠ a)
    (hargs : C.check_train_args s x = .ok ())
    (hstep : C.train_step s.train_phase.toNat
      { s with train_phase_started := true } { x with dtype := a } = .ok i) :
    train C x s = .ok () { s with train_phase_started := true, internal := i } ∧
    set_dtype C (some x.dtype) s = .err (.dtypeAlreadySet a x.dtype) s := by
  constructor
  · rw [train_eval C x s hT hTr, check_input_locked_ok C x s c a hid hdt hnd hc hrows]
    dsimp only
    rw [hargs]
    dsimp only
    rw [show refcast x s.dtype = { x with dtype := a } by rw [hdt]; rfl, hstep]
  · obtain ⟨id, od, dt, tr, ph, st, it⟩ := s
    simp only at hdt
    subst hdt
    simp [set_dtype, bind_apply, getS_apply, throwE_apply, Bind.bind, hb,
      Ne.symm hb]

/-- C2 amended witness at the concrete Cumulator run. -/
theorem C2_amended_witness :
    train cumClass arrTypeB cumAfterA =
      .ok () { cumAfterA with
               train_phase_started := true,
               internal := { data := [1, 2, 3, 4], tlen := 2 } } ∧
    set_dtype cumClass (some 1) cumAfterA =
      .err (.dtypeAlreadySet 0 1) cumAfterA := by
  have h := C2_amended cumClass arrTypeB cumAfterA 0 2
    { data := [1, 2, 3, 4], tlen := 2 } rfl rfl rfl rfl rfl rfl
    (by decide) (by decide) rfl (by rfl)
  exact h

/-- C7: `stop_training` raises the training-not-started error when the node
is training but the current phase has received no data, raises the
training-finished error whenever the node is not training (including
non-trainable nodes), and otherwise closes the phase whenever the concrete
stop-step succeeds. -/
theorem C7_stop_training_errors (C : NodeClass σ) (s : NodeState σ) :
    (s.training = true → s.train_phase_started = false →
      stop_training C s = .err .notTrained s) ∧
    (s.training = false → stop_training C s = .err .trainingFinished s) ∧
    (∀ i, s.training = true → s.train_phase_started = true →
      C.stop_step s.train_phase.toNat s = .ok i →
      stop_training C s =
        .ok () (if (C.n_phases : Int) - (s.train_phase + 1) = 0 then
          { s with internal := i, train_phase := s.train_phase + 1,
                   train_phase_started := false, training := false }
        else { s with internal := i, train_phase := s.train_phase + 1,
                      train_phase_started := false })) := by
  refine ⟨fun h1 h2 => stop_training_not_started C s h1 h2,
    fun h => stop_training_finished C s h,
    fun i h1 h2 hstep => ?_⟩
  rw [stop_training_eval, if_neg (by simp [h1, h2]), if_neg (by simp [h1]),
    hstep]
  dsimp only
  by_cases h3 : (C.n_phases : Int) - (s.train_phase + 1) = 0
  · rw [if_pos h3, if_pos h3]
  · rw [if_neg h3, if_neg h3]

/-- C7 witness at concrete states of a default node. -/
theorem C7_witness :
    stop_training narrowClass startedState = .err .notTrained startedState ∧
    stop_training narrowClass (fresh nonTrainableClass ()) =
      .err .trainingFinished (fresh nonTrainableClass ()) ∧
    stop_training narrowClass { startedState with train_phase_started := true } =
      .ok () { startedState with train_phase := 1, training := false } := by
  refine ⟨(C7_stop_training_errors narrowClass startedState).1 rfl rfl,
    (C7_stop_training_errors narrowClass (fresh nonTrainableClass ())).2.1
      (by decide),
    ?_⟩
  have h := (C7_stop_training_errors narrowClass
    { startedState with train_phase_started := true }).2.2 () rfl rfl rfl
  simpa using h

/-- C9 counterexample: passing a zero-row array to `train` on a non-trainable
node raises the not-trainable capability error, not a shape error, so the
claim that a shape error is raised for every node regardless of state is
false. -/
theorem C9_counterexample :
    train nonTrainableClass zeroRowArr (fresh nonTrainableClass ()) =
      .err .isNotTrainable (fresh nonTrainableClass ()) ∧
    Err.isNotTrainable ≠ Err.xZeroObs ∧
    (∀ n : Nat, Err.isNotTrainable ≠ Err.xRankError n) := by
  refine ⟨by decide, by decide, fun n => by simp⟩

/-- C9 (amended): a two-dimensional zero-row array never succeeds through
`train` or `execute` — some error is always raised — and the raised error is
the zero-observation shape error exactly when the zero-row check is reached:
for `train` on a trainable, in-training node whose locked dimension and dtype
are compatible with the array (or still unset with a supported dtype). -/
theorem C9_amended (C : NodeClass σ) (x : Arr) (s : NodeState σ)
    (hrows : x.rows = []) :
    ((train C x s).isErr = true) ∧
    ((execute C x s).isErr = true) ∧
    (∀ c t, C.is_trainable = true → s.training = true → x.ndim = 2 →
      s.input_dim = some c → s.dtype = some t → x.cols = c →
      train C x s = .err .xZeroObs s) ∧
    (C.is_trainable = true → s.training = true → x.ndim = 2 →
      s.input_dim = none → s.dtype = none → x.dtype ∈ C.supported_dtypes →
      train C x s = .err .xZeroObs
        { s with input_dim := some x.cols, dtype := some x.dtype }) := by
  refine ⟨?_, ?_, fun c t hT hTr hnd hid hdt hc => ?_, fun hT hTr hnd hid hdt hsup => ?_⟩
  · by_cases hT : C.is_trainable = true
    · by_cases hTr : s.training = true
      · rw [train_eval C x s hT hTr]
        have h1 := check_input_zero_isErr C x s hrows
        cases h2 : check_input C x s with
        | err e s1 => simp [RunResult.isErr]
        | ok a s1 =>
          rw [h2] at h1
          simp [RunResult.isErr] at h1
      · rw [train_not_training C x s hT
          (by revert hTr; cases s.training <;> simp)]
        simp [RunResult.isErr]
    · rw [train_not_trainable C x s (by revert hT; cases C.is_trainable <;> simp)]
      simp [RunResult.isErr]
  · rw [execute_eval]
    have h1 := pre_execution_zero_isErr C x hrows s
    cases h2 : pre_execution_checks C x s with
    | err e s1 => simp [RunResult.isErr]
    | ok a s1 =>
      rw [h2] at h1
      simp [RunResult.isErr] at h1
  · rw [train_eval C x s hT hTr,
      check_input_zero_locked C x s c t hid hdt hnd hc hrows]
  · rw [train_eval C x s hT hTr,
      check_input_zero_fresh C x s hid hdt hnd hsup hrows]

/-- C9 amended witness: the zero-row array on a fresh Cumulator. -/
theorem C9_amended_witness :
    (train cumClass zeroRowArr cumFresh).isErr = true ∧
    (execute cumClass zeroRowArr cumFresh).isErr = true ∧
    train cumClass zeroRowArr cumFresh =
      .err .xZeroObs { cumFresh with input_dim := some 2, dtype := some 0 } := by
  have h := C9_amended cumClass zeroRowArr cumFresh rfl
  exact ⟨h.1, h.2.1, h.2.2.2 rfl rfl rfl rfl rfl (by decide)⟩

/-- C10: for an invertible node whose training is closed and whose
`output_dim` is set to `d`, a two-dimensional zero-row array with `d` columns
passes the pre-inversion validation untouched — output validation checks only
rank and column count, never the row count — and `inverse` returns whatever
the concrete inverse-step yields on the dtype-cast array. -/
theorem C10_inverse_zero_rows (C : NodeClass σ) (y : Arr) (s : NodeState σ)
    (d : Nat) (i : σ) (x1 : Arr)
    (hI : C.is_invertible = true) (htr : s.training = false)
    (ho : s.output_dim = some d) (hnd : y.ndim = 2) (hc : y.cols = d)
    (hrows : y.rows = [])
    (hstep : C.inverse_step s (refcast y s.dtype) = .ok (i, x1)) :
    pre_inversion_checks C y s = .ok () s ∧
    inverse C y s = .ok x1 { s with internal := i } := by
  have hpre : pre_inversion_checks C y s = .ok () s := by
    rw [pre_inversion_eval C y s hI htr, ho]
    dsimp only
    rw [check_output_eval, if_neg (by simp [hnd]),
      if_neg (by simp [hc, ho])]
  refine ⟨hpre, ?_⟩
  rw [inverse_eval, hpre]
  dsimp only
  rw [hstep]

/-- C10 witness: inverse of the concrete zero-row array on a closed default
node. -/
theorem C10_witness :
    pre_inversion_checks narrowClass zeroRowArr closedState =
      .ok () closedState ∧
    inverse narrowClass zeroRowArr closedState = .ok zeroRowArr closedState := by
  have h := C10_inverse_zero_rows narrowClass zeroRowArr closedState 2 ()
    zeroRowArr rfl rfl rfl rfl rfl rfl (by rfl)
  exact h

/-- C8 counterexample: on a fresh trainable invertible node with all
dimensions unset, `inverse` raises the training-not-started TrainingException
coming from the forced `stop_training`, not a dimension error, so the claim's
unconditional dimension error for unset dimensions is false. -/
theorem C8_counterexample :
    inverse narrowClass arrTypeA (fresh narrowClass ()) =
      .err .notTrained (fresh narrowClass ()) ∧
    Err.notTrained ≠ Err.inversionDimUndefined ∧
    (∀ g e, Err.notTrained ≠ Err.yDimError g e) := by
  refine ⟨by decide, by decide, fun g e => by simp⟩

/-- C8 (amended): `inverse` raises the not-invertible error first whenever
the node declares itself non-invertible; for an invertible node that is not
in training, with `output_dim` unset, it raises the dimension-inference error
when `input_dim` is also unset, and otherwise defaults `output_dim` to
`input_dim` before validating the column count of `y` against it. -/
theorem C8_amended (C : NodeClass σ) (y : Arr) (s : NodeState σ) :
    (C.is_invertible = false → inverse C y s = .err .isNotInvertible s) ∧
    (C.is_invertible = true → s.training = false → s.output_dim = none →
      s.input_dim = none → inverse C y s = .err .inversionDimUndefined s) ∧
    (∀ c, C.is_invertible = true → s.training = false → s.output_dim = none →
      s.input_dim = some c → y.ndim = 2 → y.cols = c →
      pre_inversion_checks C y s = .ok () { s with output_dim := some c }) ∧
    (∀ c, C.is_invertible = true → s.training = false → s.output_dim = none →
      s.input_dim = some c → y.ndim = 2 → y.cols ≠ c →
      inverse C y s =
        .err (.yDimError y.cols (some c)) { s with output_dim := some c }) := by
  refine ⟨fun hI => ?_, fun hI htr ho hi => ?_, fun c hI htr ho hi hnd hc => ?_,
    fun c hI htr ho hi hnd hc => ?_⟩
  · rw [inverse_eval, pre_inversion_not_invertible C y s hI]
  · rw [inverse_eval, pre_inversion_eval C y s hI htr, ho]
    dsimp only
    rw [hi]
  · rw [pre_inversion_eval C y s hI htr, ho]
    dsimp only
    rw [hi]
    dsimp only
    rw [check_output_eval, if_neg (by simp [hnd]), if_neg (by simp [hc])]
  · rw [inverse_eval, pre_inversion_eval C y s hI htr, ho]
    dsimp only
    rw [hi]
    dsimp only
    rw [check_output_eval, if_neg (by simp [hnd]), if_pos (by simp [hc])]

/-- C8 amended witness at concrete classes and states. -/
theorem C8_amended_witness :
    inverse nonInvertibleClass arrTypeA (fresh nonInvertibleClass ()) =
      .err .isNotInvertible (fresh nonInvertibleClass ()) ∧
    inverse nonTrainableClass arrTypeA (fresh nonTrainableClass ()) =
      .err .inversionDimUndefined (fresh nonTrainableClass ()) ∧
    pre_inversion_checks nonTrainableClass arrTypeA inputOnlyState =
      .ok () { inputOnlyState with output_dim := some 2 } ∧
    inverse nonTrainableClass xUnsupported inputOnlyState =
      .err (.yDimError 3 (some 2)) { inputOnlyState with output_dim := some 2 } := by
  refine ⟨(C8_amended nonInvertibleClass arrTypeA _).1 rfl,
    (C8_amended nonTrainableClass arrTypeA _).2.1 rfl (by decide) rfl rfl,
    (C8_amended nonTrainableClass arrTypeA inputOnlyState).2.2.1 2 rfl rfl rfl
      rfl rfl rfl,
    (C8_amended nonTrainableClass xUnsupported inputOnlyState).2.2.2 2 rfl rfl
      rfl rfl rfl (by decide)⟩

/-- Projections of `execute`'s final state agree with the final state of its
pre-execution checks: the concrete execute-step writes only `internal`. -/
theorem execute_state_frame (C : NodeClass σ) (x : Arr) (s : NodeState σ) :
    (execute C x s).state.input_dim = (pre_execution_checks C x s).state.input_dim ∧
    (execute C x s).state.dtype = (pre_execution_checks C x s).state.dtype ∧
    (execute C x s).state.output_dim = (pre_execution_checks C x s).state.output_dim := by
  rw [execute_eval]
  cases h1 : pre_execution_checks C x s with
  | err e s1 => simp [RunResult.state]
  | ok a s1 =>
    dsimp only
    cases h2 : C.execute_step s1 (refcast x s1.dtype) with
    | error e => simp [RunResult.state]
    | ok p =>
      cases p with
      | mk i y => simp [RunResult.state]

/-- C4: the first two-dimensional array processed by `train` (or by `execute`
on a node past training) locks `input_dim` to its column count; afterwards
arrays with a different column count raise the dimension error through both
`train` and `execute`, while arrays with the locked column count keep being
accepted. -/
theorem C4_dimension_locking (C : NodeClass σ) (x : Arr) (s : NodeState σ) :
    (C.is_trainable = true → s.training = true → s.input_dim = none →
      s.dtype = none → x.ndim = 2 → x.dtype ∈ C.supported_dtypes →
      x.rows ≠ [] → (train C x s).state.input_dim = some x.cols) ∧
    (s.training = false → s.train_phase ≠ 0 → s.input_dim = none →
      s.dtype = none → x.ndim = 2 → x.dtype ∈ C.supported_dtypes →
      x.rows ≠ [] → (execute C x s).state.input_dim = some x.cols) ∧
    (∀ c t, C.is_trainable = true → s.training = true → s.input_dim = some c →
      s.dtype = some t → x.ndim = 2 → x.cols ≠ c →
      train C x s = .err (.xDimError x.cols (some c)) s) ∧
    (∀ c t, s.training = false → s.train_phase ≠ 0 → s.input_dim = some c →
      s.dtype = some t → x.ndim = 2 → x.cols ≠ c →
      execute C x s = .err (.xDimError x.cols (some c)) s) ∧
    (∀ c t i, C.is_trainable = true → s.training = true → s.input_dim = some c →
      s.dtype = some t → x.ndim = 2 → x.cols = c → x.rows ≠ [] →
      C.check_train_args s x = .ok () →
      C.train_step s.train_phase.toNat { s with train_phase_started := true }
        (refcast x s.dtype) = .ok i →
      train C x s = .ok () { s with train_phase_started := true, internal := i }) ∧
    (∀ c t d i y1, s.training = false → s.train_phase ≠ 0 →
      s.input_dim = some c → s.dtype = some t → s.output_dim = some d →
      x.ndim = 2 → x.cols = c → x.rows ≠ [] →
      C.execute_step s (refcast x s.dtype) = .ok (i, y1) →
      execute C x s = .ok y1 { s with internal := i }) := by
  refine ⟨fun hT hTr hid hdt hnd hsup hrows => ?_,
    fun htr hph hid hdt hnd hsup hrows => ?_,
    fun c t hT hTr hid hdt hnd hc => ?_,
    fun c t htr hph hid hdt hnd hc => ?_,
    fun c t i hT hTr hid hdt hnd hc hrows hargs hstep => ?_,
    fun c t d i y1 htr hph hid hdt ho hnd hc hrows hstep => ?_⟩
  · rw [train_eval C x s hT hTr,
      check_input_fresh_ok C x s hid hdt hnd hsup hrows]
    dsimp only
    cases hargs : C.check_train_args
        { s with input_dim := some x.cols, dtype := some x.dtype } x with
    | error e => simp [RunResult.state]
    | ok u =>
      dsimp only
      cases hstep : C.train_step s.train_phase.toNat
          { s with input_dim := some x.cols, dtype := some x.dtype,
                   train_phase_started := true } (refcast x (some x.dtype)) with
      | error e => simp [RunResult.state]
      | ok i => simp [RunResult.state]
  · have hph1 : ¬(s.train_phase = 0 ∧ s.train_phase_started = false) :=
      fun h => hph h.1
    rw [(execute_state_frame C x s).1,
      pre_execution_eval_skip C x s hph1 htr,
      check_input_fresh_ok C x s hid hdt hnd hsup hrows]
    by_cases ho : s.output_dim = none <;> simp [RunResult.state, ho]
  · rw [train_eval C x s hT hTr,
      check_input_dim_mismatch C x s c t hid hdt hnd hc]
  · have hph1 : ¬(s.train_phase = 0 ∧ s.train_phase_started = false) :=
      fun h => hph h.1
    rw [execute_eval, pre_execution_eval_skip C x s hph1 htr,
      check_input_dim_mismatch C x s c t hid hdt hnd hc]
  · rw [train_eval C x s hT hTr,
      check_input_locked_ok C x s c t hid hdt hnd hc hrows]
    dsimp only
    rw [hargs]
    dsimp only
    rw [hstep]
  · have hph1 : ¬(s.train_phase = 0 ∧ s.train_phase_started = false) :=
      fun h => hph h.1
    rw [execute_eval, pre_execution_eval_skip C x s hph1 htr,
      check_input_locked_ok C x s c t hid hdt hnd hc hrows]
    dsimp only
    rw [if_neg (by simp [ho])]
    dsimp only
    rw [hstep]

/-- C4 witness at concrete Cumulator and default-node runs. -/
theorem C4_witness :
    (train cumClass arrTypeA cumFresh).state.input_dim = some 2 ∧
    (execute nonTrainableClass arrTypeA (fresh nonTrainableClass ())).state.input_dim
      = some 2 ∧
    train cumClass xUnsupported cumAfterA =
      .err (.xDimError 3 (some 2)) cumAfterA ∧
    execute nonTrainableClass xUnsupported closedState =
      .err (.xDimError 3 (some 2)) closedState ∧
    train cumClass arrTypeB cumAfterA =
      .ok () { cumAfterA with
               train_phase_started := true,
               internal := { data := [1, 2, 3, 4], tlen := 2 } } ∧
    execute nonTrainableClass arrTypeA closedState = .ok arrTypeA closedState := by
  have h1 := (C4_dimension_locking cumClass arrTypeA cumFresh).1
    rfl rfl rfl rfl rfl (by decide) (by decide)
  have h2 := (C4_dimension_locking nonTrainableClass arrTypeA
    (fresh nonTrainableClass ())).2.1 (by decide) (by decide) rfl rfl rfl
    (by decide) (by decide)
  have h3 := (C4_dimension_locking cumClass xUnsupported cumAfterA).2.2.1
    2 0 rfl rfl rfl rfl rfl (by decide)
  have h4 := (C4_dimension_locking nonTrainableClass xUnsupported
    closedState).2.2.2.1 2 0 rfl (by decide) rfl rfl rfl (by decide)
  have h5 := (C4_dimension_locking cumClass arrTypeB cumAfterA).2.2.2.2.1
    2 0 { data := [1, 2, 3, 4], tlen := 2 } rfl rfl rfl rfl rfl rfl
    (by decide) rfl (by rfl)
  have h6 := (C4_dimension_locking nonTrainableClass arrTypeA
    closedState).2.2.2.2.2 2 0 2 () arrTypeA rfl (by decide) rfl rfl rfl rfl
    rfl (by decide) (by rfl)
  exact ⟨h1, h2, h3, h4, h5, h6⟩

/-- C5: a trainable node starts at phase 0; each successful `stop_training`
advances the phase by exactly one and flips `is_training` to false exactly
when the advanced phase reaches the declared phase count; no public operation
ever decreases the phase; and once training is finished no public operation
reopens it. -/
theorem C5_phase_monotonicity (C : NodeClass σ) (s s1 : NodeState σ)
    (x y : Arr) (i0 : σ) :
    (C.is_trainable = true →
      (fresh C i0).train_phase = 0 ∧ (fresh C i0).training = true) ∧
    (stop_training C s = .ok () s1 → s1.train_phase = s.train_phase + 1) ∧
    (stop_training C s = .ok () s1 → s.train_phase < (C.n_phases : Int) →
      (s1.training = true ↔ s1.train_phase < (C.n_phases : Int))) ∧
    (s.train_phase ≤ (train C x s).state.train_phase ∧
     s.train_phase ≤ (stop_training C s).state.train_phase ∧
     s.train_phase ≤ (execute C x s).state.train_phase ∧
     s.train_phase ≤ (inverse C y s).state.train_phase) ∧
    (s.training = false →
      (train C x s).state.training = false ∧
      (stop_training C s).state.training = false ∧
      (execute C x s).state.training = false ∧
      (inverse C y s).state.training = false) := by
  refine ⟨fun hT => by simp [fresh, hT], fun h => (stop_training_ok_inv C s s1 h).2.2.1,
    fun h hlt => ?_,
    ⟨phaseMono_train C x s, phaseMono_stop_training C s,
     phaseMono_execute C x s, phaseMono_inverse C y s⟩,
    fun h => ⟨keepsClosed_train C x s h, keepsClosed_stop_training C s h,
      keepsClosed_execute C x s h, keepsClosed_inverse C y s h⟩⟩
  obtain ⟨htr, -, hph, -, -, -, -, htr1⟩ := stop_training_ok_inv C s s1 h
  rw [htr1, hph]
  by_cases hc : (C.n_phases : Int) - (s.train_phase + 1) = 0
  · rw [if_pos hc]
    constructor
    · intro hF
      cases hF
    · intro hlt2
      omega
  · rw [if_neg hc, htr]
    constructor
    · intro _
      omega
    · intro _
      rfl

/-- C5 witness at concrete Cumulator states. -/
theorem C5_witness :
    cumClosed.train_phase = cumAfterA.train_phase + 1 ∧
    (cumClosed.training = true ↔ cumClosed.train_phase < (1 : Int)) ∧
    cumAfterA.train_phase ≤ (train cumClass arrTypeA cumAfterA).state.train_phase ∧
    (execute cumClass arrTypeA cumClosed).state.training = false := by
  have h := C5_phase_monotonicity cumClass cumAfterA cumClosed arrTypeA
    arrTypeA { data := [], tlen := 0 }
  have h2 := C5_phase_monotonicity cumClass cumClosed cumClosed arrTypeA
    arrTypeA { data := [], tlen := 0 }
  exact ⟨h.2.1 (by rfl), h.2.2.1 (by rfl) (by decide), h.2.2.2.1.1,
    (h2.2.2.2.2 rfl).2.2.1⟩

/-- Chunking the flattening of uniform-width rows recovers the rows. -/
theorem listChunk_flatten (c : Nat) (rows : List (List Int))
    (h : ∀ r ∈ rows, r.length = c) :
    listChunk c rows.length rows.flatten = rows := by
  induction rows with
  | nil => rfl
  | cons r rs ih =>
    have hr : r.length = c := h r (List.mem_cons_self r rs)
    have h1 : (r ++ rs.flatten).take c = r := by
      rw [← hr]
      exact List.take_left r rs.flatten
    have h2 : (r ++ rs.flatten).drop c = rs.flatten := by
      rw [← hr]
      exact List.drop_left r rs.flatten
    simp only [List.length_cons, List.flatten_cons, listChunk, h1, h2]
    rw [ih (fun q hq => h q (List.mem_cons_of_mem r hq))]

/-- The flattening of uniform-width rows has length rows times width. -/
theorem flatten_length_eq (c : Nat) (rows : List (List Int))
    (h : ∀ r ∈ rows, r.length = c) :
    rows.flatten.length = rows.length * c := by
  induction rows with
  | nil => simp
  | cons r rs ih =>
    have hr : r.length = c := h r (List.mem_cons_self r rs)
    have h1 := ih (fun q hq => h q (List.mem_cons_of_mem r hq))
    simp only [List.flatten_cons, List.length_append, List.length_cons, hr, h1]
    ring

/-- A successful `train` on a Cumulator with locked dimension and dtype
appends the batch's flattened rows and adds its row count. -/
theorem cum_train_ok (x : Arr) (s : NodeState CumState) (c : Nat) (t : Dtype)
    (hTr : s.training = true) (hid : s.input_dim = some c)
    (hdt : s.dtype = some t) (hnd : x.ndim = 2) (hc : x.cols = c)
    (hrows : x.rows ≠ []) :
    train cumClass x s = .ok ()
      { s with train_phase_started := true,
               internal := { data := s.internal.data ++ x.rows.flatten,
                             tlen := s.internal.tlen + x.rows.length } } := by
  rw [train_eval cumClass x s rfl hTr,
    check_input_locked_ok cumClass x s c t hid hdt hnd hc hrows]
  dsimp only
  simp [cumClass, cum_train_step, refcast, hdt]

/-- Training a Cumulator on a batch list accumulates all flattened rows in
submission order and counts all rows. -/
theorem cum_trainAll_ok (bs : List Arr) (c : Nat) (t : Dtype) :
    ∀ s : NodeState CumState, s.training = true → s.input_dim = some c →
    s.dtype = some t →
    (∀ b ∈ bs, b.ndim = 2 ∧ b.cols = c ∧ b.rows ≠ []) →
    trainAll cumClass bs s = .ok ()
      { s with
        train_phase_started := s.train_phase_started || !bs.isEmpty,
        internal := { data := s.internal.data ++
                        (bs.map (fun b => b.rows.flatten)).flatten,
                      tlen := s.internal.tlen +
                        (bs.map (fun b => b.rows.length)).sum } } := by
  induction bs with
  | nil =>
    intro s hTr hid hdt hb
    simp [trainAll, pure_apply, Pure.pure]
  | cons b bs ih =>
    intro s hTr hid hdt hb
    obtain ⟨hnd, hc, hrows⟩ := hb b (List.mem_cons_self b bs)
    have h1 := cum_train_ok b s c t hTr hid hdt hnd hc hrows
    show (train cumClass b >>= fun _ => trainAll cumClass bs) s = _
    rw [bind_apply, h1]
    dsimp only
    refine (ih _ ?_ ?_ ?_ ?_).trans ?_
    · exact hTr
    · exact hid
    · exact hdt
    · exact fun q hq => hb q (List.mem_cons_of_mem b hq)
    · simp [List.append_assoc, Nat.add_assoc]

/-- Flattening batchwise-flattened rows equals flattening the concatenated
rows. -/
theorem map_flatten_eq (bs : List Arr) :
    (bs.map (fun b => b.rows.flatten)).flatten = (bs.flatMap Arr.rows).flatten := by
  induction bs with
  | nil => rfl
  | cons b bs ih => simp [List.flatMap_cons, List.flatten_append, ih]

/-- Summing batch row counts equals the length of the concatenated rows. -/
theorem map_length_sum_eq (bs : List Arr) :
    (bs.map (fun b => b.rows.length)).sum = (bs.flatMap Arr.rows).length := by
  induction bs with
  | nil => rfl
  | cons b bs ih => simp [List.flatMap_cons, ih]

/-- C6: an Accumulator constructed with input dimension `c` and a supported
dtype, trained on any nonempty sequence of well-formed `c`-column batches and
then stopped, holds in `data` exactly the row-major concatenation of the
batches' rows, with `tlen` their total row count; the flat buffer has length
`tlen * c`, so it reshapes to `(tlen, c)`, and chunking it into `c`-wide rows
recovers the concatenated rows in submission order. -/
theorem C6_accumulator (bs : List Arr) (c : Nat) (t : Dtype)
    (ht : t ∈ allDtypes) (hbs : bs ≠ [])
    (hb : ∀ b ∈ bs, b.ndim = 2 ∧ b.cols = c ∧ b.rows ≠ [] ∧
      ∀ r ∈ b.rows, r.length = c) :
    cum_init (some c) none (some t) = .ok ()
      { input_dim := some c, output_dim := none, dtype := some t,
        training := true, train_phase := 0, train_phase_started := false,
        internal := { data := [], tlen := 0 } } ∧
    (trainAll cumClass bs >>= fun _ => stop_training cumClass)
      { input_dim := some c, output_dim := none, dtype := some t,
        training := true, train_phase := 0, train_phase_started := false,
        internal := { data := [], tlen := 0 } } =
      .ok ()
        { input_dim := some c, output_dim := none, dtype := some t,
          training := false, train_phase := 1, train_phase_started := false,
          internal := { data := (bs.flatMap Arr.rows).flatten,
                        tlen := (bs.flatMap Arr.rows).length } } ∧
    (bs.flatMap Arr.rows).flatten.length = (bs.flatMap Arr.rows).length * c ∧
    listChunk c (bs.flatMap Arr.rows).length (bs.flatMap Arr.rows).flatten =
      bs.flatMap Arr.rows := by
  have hR : ∀ r ∈ bs.flatMap Arr.rows, r.length = c := by
    intro r hr
    rw [List.mem_flatMap] at hr
    obtain ⟨b, hb1, hb2⟩ := hr
    exact (hb b hb1).2.2.2 r hb2
  have hlen := flatten_length_eq c (bs.flatMap Arr.rows) hR
  have hdata := map_flatten_eq bs
  have htlen := map_length_sum_eq bs
  have hne : bs.isEmpty = false := by
    cases bs with
    | nil => exact absurd rfl hbs
    | cons b bs2 => rfl
  refine ⟨?_, ?_, hlen, listChunk_flatten c (bs.flatMap Arr.rows) hR⟩
  · simp [cum_init, node_init, set_input_dim, set_output_dim, set_dtype,
      cumClass, bind_apply, getS_apply, setS_apply, pure_apply, throwE_apply,
      Bind.bind, Pure.pure, ht]
  · rw [bind_apply,
      cum_trainAll_ok bs c t _ rfl rfl rfl (fun b hb1 =>
        ⟨(hb b hb1).1, (hb b hb1).2.1, (hb b hb1).2.2.1⟩)]
    simp only [hne, hdata, htlen, List.nil_append, Nat.zero_add,
      Bool.false_or, Bool.not_false]
    rw [stop_training_eval]
    rw [if_neg (by simp), if_neg (by simp)]
    have hstep : cumClass.stop_step (0 : Int).toNat
        { input_dim := some c, output_dim := none, dtype := some t,
          training := true, train_phase := 0, train_phase_started := true,
          internal := { data := (bs.flatMap Arr.rows).flatten,
                        tlen := (bs.flatMap Arr.rows).length } } =
        .ok { data := (bs.flatMap Arr.rows).flatten,
              tlen := (bs.flatMap Arr.rows).length } := by
      simp [cumClass, cum_stop_step, hlen]
    dsimp only
    rw [hstep]
    dsimp only
    rw [if_pos (by simp [cumClass])]
    norm_num

/-- C6 witness: the two batches of shapes (3, 2) and (5, 2) produce a data
array of shape (8, 2) holding the rows of both batches in order. -/
theorem C6_witness :
    (trainAll cumClass [batch32, batch52] >>= fun _ => stop_training cumClass)
      { input_dim := some 2, output_dim := none, dtype := some 0,
        training := true, train_phase := 0, train_phase_started := false,
        internal := { data := [], tlen := 0 } } =
      .ok ()
        { input_dim := some 2, output_dim := none, dtype := some 0,
          training := false, train_phase := 1, train_phase_started := false,
          internal := { data := [1, 2, 3, 4, 5, 6, 7, 8, 9, 10, 11, 12, 13,
                                 14, 15, 16],
                        tlen := 8 } } ∧
    listChunk 2 8 [1, 2, 3, 4, 5, 6, 7, 8, 9, 10, 11, 12, 13, 14, 15, 16] =
      batch32.rows ++ batch52.rows := by
  have h := C6_accumulator [batch32, batch52] 2 0 (by decide) (by decide)
    (by decide)
  refine ⟨?_, ?_⟩
  · have h2 := h.2.1
    simpa [batch32, batch52] using h2
  · have h2 := h.2.2.2
    simpa [batch32, batch52] using h2

/-- C3: on a freshly constructed single-phase trainable node, `execute X` is
the very same computation as `train X`, then `stop_training`, then
`execute X` on the same node: identical result (output value or error) and
identical final state, for every two-dimensional array with at least one row
and a supported dtype, whatever the concrete steps do. -/
theorem C3_implicit_bootstrap (C : NodeClass σ) (x : Arr) (i0 : σ)
    (hT : C.is_trainable = true) (hN : C.n_phases = 1)
    (hnd : x.ndim = 2) (hrows : x.rows ≠ [])
    (hsup : x.dtype ∈ C.supported_dtypes) :
    execute C x (fresh C i0) =
      (train C x >>= fun _ => stop_training C >>= fun _ => execute C x)
        (fresh C i0) := by
  have hph0 : (fresh C i0).train_phase = 0 := by simp [fresh, hT]
  have hst0 : (fresh C i0).train_phase_started = false := rfl
  have htr0 : (fresh C i0).training = true := by simp [fresh, hT]
  rw [bind_apply]
  cases htr : train C x (fresh C i0) with
  | err e s1 =>
    have hpre : pre_execution_checks C x (fresh C i0) = .err e s1 := by
      unfold pre_execution_checks
      rw [bind_apply, getS_apply]
      dsimp only
      rw [if_pos ⟨hph0, hst0⟩, bind_apply,
        bootstrap_err_of_train C x (fresh C i0) s1 e C.n_phases htr]
    rw [execute_eval, hpre]
  | ok a s1 =>
    obtain ⟨⟩ := a
    have hf := train_frame C x (fresh C i0)
    rw [htr] at hf
    simp only [RunResult.state] at hf
    have hf1 : s1.training = true := by rw [hf.1, htr0]
    have hf2 : s1.train_phase = 0 := by rw [hf.2.1, hph0]
    have hboot : bootstrap_loop C x C.n_phases (fresh C i0) = .ok () s1 := by
      rw [hN]
      show (train C x >>= fun _ => getS >>= fun s =>
        if (C.n_phases : Int) - s.train_phase > 1 then
          stop_training C >>= fun _ => bootstrap_loop C x 0
        else pure ()) (fresh C i0) = .ok () s1
      rw [bind_apply, htr]
      dsimp only
      rw [bind_apply, getS_apply]
      dsimp only
      rw [if_neg (by rw [hf2, hN]; norm_num), pure_apply]
    cases hstop : stop_training C s1 with
    | err e s2 =>
      have hs2 := stop_training_err_inv C s1 s2 e hstop
      rw [hs2] at hstop
      have hpre : pre_execution_checks C x (fresh C i0) = .err e s1 := by
        unfold pre_execution_checks
        rw [bind_apply, getS_apply]
        dsimp only
        rw [if_pos ⟨hph0, hst0⟩, bind_apply, hboot]
        dsimp only
        rw [bind_apply, if_training_eval_training C s1 hf1, hstop]
      rw [execute_eval, hpre]
      dsimp only
      rw [bind_apply, hstop]
    | ok b s2 =>
      obtain ⟨⟩ := b
      have hsi := stop_training_ok_inv C s1 s2 hstop
      have hph2 : s2.train_phase = 1 := by
        rw [hsi.2.2.1, hf2]
        norm_num
      have htr2 : s2.training = false := by
        rw [hsi.2.2.2.2.2.2.2, hf2, hN]
        norm_num
      have hpre : pre_execution_checks C x (fresh C i0) =
          (check_input C x >>= fun _ => getS >>= fun s3 =>
            if s3.output_dim = none then set_output_dim s3.input_dim
            else pure ()) s2 := by
        unfold pre_execution_checks
        rw [bind_apply, getS_apply]
        dsimp only
        rw [if_pos ⟨hph0, hst0⟩, bind_apply, hboot]
        dsimp only
        rw [bind_apply, if_training_eval_training C s1 hf1, hstop]
        dsimp only
        rw [if_neg (by rw [hph2, hN]; norm_num)]
      have hpre2 : pre_execution_checks C x s2 =
          (check_input C x >>= fun _ => getS >>= fun s3 =>
            if s3.output_dim = none then set_output_dim s3.input_dim
            else pure ()) s2 := by
        unfold pre_execution_checks
        rw [bind_apply, getS_apply]
        dsimp only
        rw [if_neg (by rw [hph2]; simp), bind_apply, pure_apply]
        dsimp only
        rw [bind_apply, if_training_not_training C s2 htr2]
      dsimp only
      rw [bind_apply, hstop]
      dsimp only
      rw [execute_eval, execute_eval, hpre, hpre2]

/-- C3 witness: the equivalence at the concrete fresh Cumulator and array. -/
theorem C3_witness :
    execute cumClass arrTypeA (fresh cumClass { data := [], tlen := 0 }) =
      (train cumClass arrTypeA >>= fun _ => stop_training cumClass >>= fun _ =>
        execute cumClass arrTypeA) (fresh cumClass { data := [], tlen := 0 }) :=
  C3_implicit_bootstrap cumClass arrTypeA { data := [], tlen := 0 } rfl rfl rfl
    (by decide) (by decide)

end MdpSignalNode
